import Mathlib

/-
  Verification of the ADS-B decode-and-aggregate pipeline (src/adsbdecoder.py).

  Shallow embedding conventions:
  - Python values flowing through records are modelled by `PyScalar` / `PyVal`;
    floats and timestamps are modelled by `Rat`; the `datetime` object produced
    by `_to_datetime` is modelled opaquely as `PyScalar.sDatetime ts` (the
    conversion is injective in `ts`).
  - The external pyModeS library and hashlib are opaque collaborators; they are
    modelled by the record of functions `PMS`.  A decoder that may raise is a
    function into `Except Unit _`; a decoder that may return Python `None`
    returns `Option _` or the value `pNone`.
  - Python dictionaries are association lists with insertion-order semantics:
    `dictInsert` overwrites the first matching key in place (Python dicts keep
    the original position of an overwritten key), `dlookup` is `dict.get`.
  - Frames are the 28-character hex strings that `handle_messages` works on
    (the bytes→hex conversion at the top of the loop belongs to the transport).
  - Python truthiness of the configured reference coordinates
    (`if self.ref_lat and self.ref_lon`) is embedded literally: `None` and
    `0.0` are both falsy.
-/

deriving instance DecidableEq for Except

namespace FlightData

attribute [local semireducible] Rat.sub Rat.add Rat.mul Rat.inv Rat.ofScientific

/-- Scalar Python values occurring in the pipeline's records. -/
inductive PyScalar where
  | sNone
  | sBool (b : Bool)
  | sInt (n : Int)
  | sRat (q : Rat)
  | sStr (s : String)
  | sDatetime (ts : Rat)
deriving DecidableEq, Repr

/-- A record value: a scalar or a tuple of scalars (pyModeS decoders return
flat tuples such as `(speed, track, vr, type)`; they never nest). -/
inductive PyVal where
  | scalar (s : PyScalar)
  | tup (xs : List PyScalar)
deriving DecidableEq, Repr

def pNone : PyVal := .scalar .sNone
def pBool (b : Bool) : PyVal := .scalar (.sBool b)
def pInt (n : Int) : PyVal := .scalar (.sInt n)
def pRat (q : Rat) : PyVal := .scalar (.sRat q)
def pStr (s : String) : PyVal := .scalar (.sStr s)
def pDt (ts : Rat) : PyVal := .scalar (.sDatetime ts)

/-- The library's degenerate all-null placeholder `(None, None)`. -/
def nonePair : PyVal := .tup [.sNone, .sNone]

/-- A record, as built by `handle_messages`: a Python dict from field name to
value, in insertion order. -/
abbrev Rec := List (String × PyVal)

/-- Python dict assignment `d[k] = v`: overwrite the first occurrence of `k`
in place, else append at the end. -/
def dictInsert {α : Type} : List (String × α) → String → α → List (String × α)
  | [], k, v => [(k, v)]
  | (k', v') :: rest, k, v =>
    if k' = k then (k, v) :: rest else (k', v') :: dictInsert rest k v

/-- Python dict lookup `d.get(k)`. -/
def dlookup {α : Type} : List (String × α) → String → Option α
  | [], _ => none
  | (k', v) :: rest, k => if k' = k then some v else dlookup rest k

theorem dlookup_dictInsert_self {α : Type} (d : List (String × α)) (k : String) (v : α) :
    dlookup (dictInsert d k v) k = some v := by
  induction d with
  | nil => simp [dictInsert, dlookup]
  | cons hd tl ih =>
    obtain ⟨k', v'⟩ := hd
    by_cases h : k' = k
    · simp [dictInsert, h, dlookup]
    · simp [dictInsert, h, dlookup, ih]

theorem dlookup_dictInsert_ne {α : Type} (d : List (String × α)) (k : String) (v : α)
    (k'' : String) (h : k'' ≠ k) :
    dlookup (dictInsert d k v) k'' = dlookup d k'' := by
  induction d with
  | nil => simp [dictInsert, dlookup, Ne.symm h]
  | cons hd tl ih =>
    obtain ⟨k', v'⟩ := hd
    by_cases hk : k' = k
    · subst hk
      simp [dictInsert, dlookup, Ne.symm h]
    · by_cases hq : k' = k''
      · simp [dictInsert, hk, dlookup, hq, h]
      · simp [dictInsert, hk, dlookup, hq, ih]

/-- Membership of a key in a dict (`k in d`). -/
def dhasKey {α : Type} (d : List (String × α)) (k : String) : Bool :=
  (dlookup d k).isSome

/-! ## The external pyModeS library, as an opaque collaborator -/

/-- The bit-level decoder library (pyModeS) plus `hashlib.blake2s`, modelled as
an abstract record of functions.  `Except Unit _` models a Python call that may
raise; `Option _` models a Python `None` result where control flow branches on
it. -/
structure PMS where
  crc : String → Int
  df : String → Nat
  icao : String → Option String
  typecode : String → Option Int
  oe_flag : String → Except Unit Int
  adsbF : String → String → Except Unit PyVal
  commbF : String → String → Except Unit PyVal
  bds_infer : String → Except Unit (Option String)
  bdsHas : String → Bool
  bdsFlag : String → String → Except Unit PyVal
  altcode : String → Except Unit PyVal
  ca : String → Except Unit PyVal
  surface_position : String → String → Rat → Rat → Rat → Rat → Except Unit (Rat × Rat)
  airborne_position : String → String → Rat → Rat → Except Unit (Rat × Rat)
  position_with_ref : String → Rat → Rat → Except Unit (Rat × Rat)
  blake2s8 : String → String

/-- The receiver reference point (`ref_lat` / `ref_lon` of `BeastDF.__init__`),
either of which may be `None`. -/
structure Config where
  refLat : Option Rat
  refLon : Option Rat

/-- One entry of `position_cache[icao]`: the most recent even and odd
position frames, each with its timestamp. -/
structure CacheEntry where
  even : Option (String × Rat)
  odd : Option (String × Rat)
deriving DecidableEq, Repr

/-- The mutable state of a `BeastDF` client. -/
structure BeastState where
  records : List Rec
  position_cache : List (String × CacheEntry)
  counts : String → Nat

/-- `self.msg_counts[k] += 1` on a `defaultdict(int)`. -/
def bump (c : String → Nat) (k : String) : String → Nat :=
  fun s => if s = k then c s + 1 else c s

/-- Fresh client state (`records = []`, empty cache, all counters zero). -/
def initState : BeastState := ⟨[], [], fun _ => 0⟩

/-! ## Dispatch tables (the keys of ADSB_FUNCS / COMMB_FUNCS / BDS_FLAGS) -/

/-- Keys of `ADSB_FUNCS`, in dict order. -/
def ADSB_KEYS : List String :=
  ["callsign", "category", "altitude", "oe_flag", "velocity", "speed_heading",
   "airborne_velocity", "altitude_diff", "version", "nuc_p", "nuc_v", "nac_p",
   "nac_v", "nic_s", "nic_a_c", "nic_b", "sil", "selected_altitude",
   "selected_heading", "baro_pressure_setting", "autopilot", "vnav_mode",
   "altitude_hold_mode", "approach_mode", "tcas_operational", "lnav_mode",
   "emergency_state", "emergency_squawk", "is_emergency"]

/-- Keys of `COMMB_FUNCS`, in dict order. -/
def COMMB_KEYS : List String :=
  ["ovc10", "cap17", "cs20", "selalt40_mcp", "selalt40_fms", "p40_baro",
   "wind44", "temp44", "p44", "hum44", "turb45", "ws45", "mb45", "ic45",
   "wv45", "temp45", "p45", "rh45", "roll50", "trk50", "gs50", "rtrk50",
   "tas50", "hdg60", "ias60", "mach60", "vr60_baro", "vr60_ins"]

/-- Keys of `BDS_FLAGS`, in dict order. -/
def BDS_NAMES : List String :=
  ["bds10", "bds17", "bds20", "bds30", "bds40", "bds44", "bds45", "bds50", "bds60"]

/-- The decoder stored under key `k` of `ADSB_FUNCS`.  The entry `"oe_flag"`
is the very function `pms.adsb.oe_flag` that `_handle_position_message` also
calls directly, so it is routed through the same `PMS.oe_flag` slot. -/
def adsbDecode (lib : PMS) (k : String) (msg : String) : Except Unit PyVal :=
  if k = "oe_flag" then (lib.oe_flag msg).map pInt else lib.adsbF k msg

/-- Outcome of one iteration of the ADS-B decode loop for key `k`:
`some v` exactly when `func(msg)` returns without raising and the result is
neither `None` nor `(None, None)`. -/
def adsbResult (lib : PMS) (msg : String) (k : String) : Option PyVal :=
  match adsbDecode lib k msg with
  | .ok v => if v ≠ pNone ∧ v ≠ nonePair then some v else none
  | .error _ => none

def adsbStep (lib : PMS) (msg : String) (r : Rec) (k : String) : Rec :=
  match adsbResult lib msg k with
  | some v => dictInsert r k v
  | none => r

/-- The `for fname, func in ADSB_FUNCS.items()` loop. -/
def adsbFold (lib : PMS) (msg : String) (r : Rec) : Rec :=
  ADSB_KEYS.foldl (adsbStep lib msg) r

/-- Outcome of one iteration of the Comm-B decode loop for key `k`:
`some v` exactly when `func(msg)` returns without raising and the result is
not `None`.  Note: unlike the ADS-B loop, the source has no
`val != (None, None)` filter here. -/
def commbResult (lib : PMS) (msg : String) (k : String) : Option PyVal :=
  match lib.commbF k msg with
  | .ok v => if v ≠ pNone then some v else none
  | .error _ => none

def commbStep (lib : PMS) (msg : String) (r : Rec) (k : String) : Rec :=
  match commbResult lib msg k with
  | some v => dictInsert r k v
  | none => r

/-- The `for key, func in COMMB_FUNCS.items()` loop. -/
def commbFold (lib : PMS) (msg : String) (r : Rec) : Rec :=
  COMMB_KEYS.foldl (commbStep lib msg) r

/-- One iteration of the BDS-flag loop: `fn_name = f"is{bds_name[3:]}"`;
if the module has the predicate, store its result (even `None`) under
`fn_name`; a raising call is absorbed. -/
def bdsStep (lib : PMS) (msg : String) (r : Rec) (name : String) : Rec :=
  if lib.bdsHas name then
    match lib.bdsFlag name msg with
    | .ok v => dictInsert r ("is" ++ name.drop 3) v
    | .error _ => r
  else r

/-- The `for bds_name, module in BDS_FLAGS.items()` loop. -/
def bdsFold (lib : PMS) (msg : String) (r : Rec) : Rec :=
  BDS_NAMES.foldl (bdsStep lib msg) r

/-! ## Position pairing (`_handle_position_message`, lines 303-358) -/

/-- The fallback in the `except` branch (lines 347-358): a single-message
reference-relative decode, attempted only when both reference coordinates are
truthy; its own failure is absorbed. -/
def tryFallback (lib : PMS) (cfg : Config) (msg : String) : Option (Rat × Rat × String) :=
  match cfg.refLat, cfg.refLon with
  | some la, some lo =>
    if la ≠ 0 ∧ lo ≠ 0 then
      match lib.position_with_ref msg la lo with
      | .ok (lat, lon) => some (lat, lon, "with_ref")
      | .error _ => none
    else none
  | _, _ => none

/-- Lines 321-358: with the updated cache entry for this aircraft, decode a
position when both slots are populated and the timestamps differ by less than
10 seconds.  `some (lat, lon, position_type)` is produced exactly when the
code assigns `rec['latitude'] / rec['longitude'] / rec['position_type']`.
The Python truthiness guard `if self.ref_lat and self.ref_lon` is `false`
when either coordinate is `None` or `0.0`. -/
def tryResolve (lib : PMS) (cfg : Config) (entry : CacheEntry) (msg : String) (t : Int) :
    Option (Rat × Rat × String) :=
  match entry.even, entry.odd with
  | some (em, ets), some (om, ots) =>
    if |ets - ots| < 10 then
      if 5 ≤ t ∧ t ≤ 8 then
        match cfg.refLat, cfg.refLon with
        | some la, some lo =>
          if la ≠ 0 ∧ lo ≠ 0 then
            match lib.surface_position em om ets ots la lo with
            | .ok (lat, lon) => some (lat, lon, "surface")
            | .error _ => tryFallback lib cfg msg
          else none
        | _, _ => none
      else
        match lib.airborne_position em om ets ots with
        | .ok (lat, lon) => some (lat, lon, "airborne")
        | .error _ => tryFallback lib cfg msg
    else none
  | _, _ => none

/-- Lines 315-319: store the frame in the slot selected by the parity flag,
last write wins. -/
def updEntry (entry0 : CacheEntry) (oe : Int) (msg : String) (ts : Rat) : CacheEntry :=
  if oe = 0 then { entry0 with even := some (msg, ts) }
  else { entry0 with odd := some (msg, ts) }

/-- The body of `_handle_position_message` after the parity flag has been
extracted: record the flag, update the cache slot, and attach the resolved
position fields when `tryResolve` produces one. -/
def handlePositionCore (lib : PMS) (cfg : Config) (cache : List (String × CacheEntry))
    (r : Rec) (msg : String) (ts : Rat) (icao : String) (t : Int) (oe : Int) :
    List (String × CacheEntry) × Rec :=
  let entry := updEntry ((dlookup cache icao).getD ⟨none, none⟩) oe msg ts
  let r1 := dictInsert r "oe_flag" (pInt oe)
  match tryResolve lib cfg entry msg t with
  | some (la, lo, pt) =>
    (dictInsert cache icao entry,
     dictInsert (dictInsert (dictInsert r1 "latitude" (pRat la))
       "longitude" (pRat lo)) "position_type" (pStr pt))
  | none => (dictInsert cache icao entry, r1)

/-- `_handle_position_message` (lines 303-358).  The call
`oe_flag = pms.adsb.oe_flag(msg)` at line 308 is NOT inside a `try`, so a
raising `oe_flag` propagates out of the handler (`Except.error`); everything
else is absorbed locally. -/
def handlePosition (lib : PMS) (cfg : Config) (cache : List (String × CacheEntry))
    (r : Rec) (msg : String) (ts : Rat) (icao : String) (tc : Option Int) :
    Except Unit (List (String × CacheEntry) × Rec) :=
  match tc with
  | none => .ok (cache, r)
  | some t =>
    if 5 ≤ t ∧ t < 23 then
      match lib.oe_flag msg with
      | .error e => .error e
      | .ok oe => .ok (handlePositionCore lib cfg cache r msg ts icao t oe)
    else .ok (cache, r)

/-! ## The main loop (`handle_messages`, lines 202-301) -/

/-- The value stored under `rec['typecode']` (pyModeS `typecode` may return
`None`). -/
def tcPyVal : Option Int → PyVal
  | none => pNone
  | some t => pInt t

/-- The suffix of the `f"tc{tc}"` counter key (`"None"` when `typecode`
returned `None`, as Python string formatting would produce). -/
def tcSuffix : Option Int → String
  | none => "None"
  | some t => toString t

/-- Python `tc in range(5, 23)` with `tc` possibly `None`. -/
def tcInPos : Option Int → Bool
  | none => false
  | some t => decide (5 ≤ t) && decide (t < 23)

/-- Python `if not icao` on the result of `pms.icao(msg)`: `None` and the
empty string are falsy. -/
def icaoFalsy : Option String → Bool
  | none => true
  | some s => s.isEmpty

/-- The base identity fields of every record (lines 228-235). -/
def baseRec (lib : PMS) (msg : String) (ts : Rat) (dfv : Nat) (icao : String) : Rec :=
  [("timestamp", pRat ts), ("datetime_utc", pDt ts), ("msg", pStr msg),
   ("msg_hash", pStr (lib.blake2s8 msg)), ("df", pInt dfv), ("icao", pStr icao)]

/-- One iteration of the `for raw_bytes, ts in messages` loop of
`handle_messages`, on an already-hex frame.  `Except.error st` models an
exception escaping the iteration (only possible through the unguarded
`oe_flag` call in `_handle_position_message`); the carried state is the
mutation state at the moment of the crash. -/
def handleMessage (lib : PMS) (cfg : Config) (st : BeastState) (p : String × Rat) :
    Except BeastState BeastState :=
  let msg := p.1
  let ts := p.2
  if msg.length ≠ 28 then .ok st
  else if lib.crc msg ≠ 0 then
    .ok { st with counts := bump st.counts "crc_fail" }
  else
    let dfv := lib.df msg
    if icaoFalsy (lib.icao msg) then .ok st
    else
      let icao := (lib.icao msg).getD ""
      let counts1 := bump st.counts ("df" ++ toString dfv)
      let r0 : Rec := baseRec lib msg ts dfv icao
      if dfv = 17 ∨ dfv = 18 then
        let tc := lib.typecode msg
        let r1 := dictInsert r0 "typecode" (tcPyVal tc)
        let counts2 := bump counts1 ("tc" ++ tcSuffix tc)
        let r2 := adsbFold lib msg r1
        if tcInPos tc then
          match handlePosition lib cfg st.position_cache r2 msg ts icao tc with
          | .ok (cache2, r3) => .ok ⟨st.records ++ [r3], cache2, counts2⟩
          | .error _ => .error ⟨st.records, st.position_cache, counts2⟩
        else
          .ok ⟨st.records ++ [r2], st.position_cache, counts2⟩
      else if dfv = 20 ∨ dfv = 21 then
        let inferRes := lib.bds_infer msg
        let r1 := match inferRes with
          | .ok (some s) => dictInsert r0 "bds" (pStr s)
          | .ok none => dictInsert r0 "bds" pNone
          | .error _ => dictInsert r0 "bds" pNone
        let counts2 := match inferRes with
          | .ok (some s) => if s ≠ "" then bump counts1 ("bds" ++ s) else counts1
          | .ok none => counts1
          | .error _ => counts1
        let r2 := bdsFold lib msg r1
        let r3 := commbFold lib msg r2
        .ok ⟨st.records ++ [r3], st.position_cache, counts2⟩
      else if dfv = 4 ∨ dfv = 5 then
        let r1 := match lib.altcode msg with
          | .ok v => dictInsert r0 "altitude" v
          | .error _ => r0
        .ok ⟨st.records ++ [r1], st.position_cache, counts1⟩
      else if dfv = 11 then
        let r1 := match lib.ca msg with
          | .ok v => dictInsert r0 "capability" v
          | .error _ => r0
        .ok ⟨st.records ++ [r1], st.position_cache, counts1⟩
      else
        .ok ⟨st.records ++ [r0], st.position_cache, counts1⟩

/-- `handle_messages` over a batch: strict arrival order, stopping at the
first escaping exception (which aborts the remainder of the batch). -/
def handleMessages (lib : PMS) (cfg : Config) (st : BeastState) :
    List (String × Rat) → Except BeastState BeastState
  | [] => .ok st
  | p :: ps =>
    match handleMessage lib cfg st p with
    | .ok st' => handleMessages lib cfg st' ps
    | .error st' => .error st'

/-- The client state after a batch, whether or not the batch crashed. -/
def resultState (e : Except BeastState BeastState) : BeastState :=
  match e with
  | .ok s => s
  | .error s => s

/-! ## Record flattening (`_flatten_record`, lines 153-170) -/

/-- The fixed name table for multi-valued fields (lines 120-132). -/
def TUPLE_FIELD_MAP : List (String × List String) :=
  [("velocity", ["velocity_gs", "velocity_track", "velocity_vr", "velocity_type"]),
   ("speed_heading", ["spdhdg_speed", "spdhdg_heading"]),
   ("airborne_velocity", ["airborne_speed", "airborne_heading", "airborne_vr", "airborne_type"]),
   ("selected_altitude", ["selected_altitude_ft", "selected_altitude_src"]),
   ("wind44", ["wind44_speed", "wind44_dir"]),
   ("temp44", ["temp44_c"]),
   ("p44", ["p44_hpa"]),
   ("hum44", ["hum44_pct"]),
   ("temp45", ["temp45_c"]),
   ("p45", ["p45_hpa"]),
   ("rh45", ["rh45_pct"])]

/-- The positional sub-field name `f"{key}_{idx}"`. -/
def posKey (key : String) (idx : Nat) : String := key ++ "_" ++ toString idx

/-- The positional-expansion loop `for idx, item in enumerate(val)
(starting at index start): flat[f"{key}_{idx}"] = item`. -/
def posExpand (key : String) (start : Nat) : List PyScalar → List (String × PyVal)
  | [] => []
  | x :: xs => (posKey key start, .scalar x) :: posExpand key (start + 1) xs

/-- The flat assignments produced by one record entry, in the order Python
performs them: a scalar passes through; a tuple with a (truthy) name-table
entry gets the named sub-fields for the shared prefix and positional names
for any surplus; a tuple without a table entry is expanded positionally. -/
def flatEntryPairs (key : String) (v : PyVal) : List (String × PyVal) :=
  match v with
  | .scalar s => [(key, .scalar s)]
  | .tup xs =>
    match dlookup TUPLE_FIELD_MAP key with
    | some names =>
      if names ≠ [] then
        names.zip (xs.map PyVal.scalar) ++ posExpand key names.length (xs.drop names.length)
      else posExpand key 0 xs
    | none => posExpand key 0 xs

/-- `_flatten_record`: fold the assignments of every entry into the dict
`flat`, starting from `flat = {}`. -/
def flattenRecord (r : Rec) : Rec :=
  r.foldl (fun flat kv => (flatEntryPairs kv.1 kv.2).foldl
    (fun f p => dictInsert f p.1 p.2) flat) []

/-- All flat assignments of a record, concatenated in program order (the
list-level counterpart of `flattenRecord`, before dict-overwrite collapses
duplicate keys). -/
def flatPairs (r : Rec) : Rec :=
  r.flatMap (fun kv => flatEntryPairs kv.1 kv.2)

/-- The flat name under which element `idx` of the multi-valued field `key`
is stored: the table name when one exists for that index, positionally
otherwise. -/
def flatKey (key : String) (idx : Nat) : String :=
  match dlookup TUPLE_FIELD_MAP key with
  | some names =>
    if names ≠ [] then names.getD idx (posKey key idx) else posKey key idx
  | none => posKey key idx

/-! ## Quantization (`_apply_quantization`, lines 134-148 and 172-191) -/

/-- Rounding to the nearest integer, halves away from zero (the rounding of
`Float.round` / polars `round`), on the `Rat` model of floats. -/
def roundHalfAway (x : Rat) : Int :=
  if 0 ≤ x then ⌊x + 1 / 2⌋ else -⌊-x + 1 / 2⌋

/-- Step quantization `((col / step).round(0) * step)`. -/
def stepQuant (step : Rat) (x : Rat) : Rat := (roundHalfAway (x / step) : Rat) * step

/-- Decimal quantization `col.round(decimals)`. -/
def decQuant (decimals : Nat) (x : Rat) : Rat :=
  (roundHalfAway (x * 10 ^ decimals) : Rat) / 10 ^ decimals

/-- `STEP_QUANTIZATION` (lines 134-137). -/
def STEP_QUANTIZATION : List (List String × Rat) :=
  [(["altitude", "selected_altitude_ft", "altitude_diff"], 25),
   (["vr", "vertical_rate"], 10)]

/-- `DECIMAL_QUANTIZATION` (lines 139-148). -/
def DECIMAL_QUANTIZATION : List (List String × Nat) :=
  [(["latitude", "longitude"], 4),
   (["heading", "track", "dir"], 1),
   (["speed", "gs", "tas", "ias"], 1),
   (["roll"], 1),
   (["mach"], 3),
   (["temp"], 1),
   (["pressure", "p44_hpa", "p45_hpa", "baro_pressure_setting"], 1),
   (["hum", "rh"], 0)]

/-- Python `sub in col` (substring containment). -/
def strContains (col sub : String) : Bool := decide (sub.toList <:+: col.toList)

/-- Python `any(sub in col for sub in substrings)`. -/
def matchesAny (col : String) (subs : List String) : Bool :=
  subs.any (fun sub => strContains col sub)

/-- The single quantization rule selected for a column. -/
inductive QRule where
  | step (s : Rat)
  | dec (d : Nat)
deriving DecidableEq, Repr

/-- Rule selection for a numeric column: first matching step rule wins; only
if no step rule matched, the first matching decimal rule; at most one rule
per column. -/
def ruleFor (col : String) : Option QRule :=
  match STEP_QUANTIZATION.find? (fun p => matchesAny col p.1) with
  | some p => some (.step p.2)
  | none =>
    match DECIMAL_QUANTIZATION.find? (fun p => matchesAny col p.1) with
    | some p => some (.dec p.2)
    | none => none

def applyRule : QRule → Rat → Rat
  | .step s, x => stepQuant s x
  | .dec d, x => decQuant d x

/-- One column of a polars DataFrame: numeric columns carry nullable float
cells (quantization applies), every other dtype is opaque to this pass. -/
inductive ColSeries where
  | numeric (cells : List (Option Rat))
  | other (cells : List PyVal)
deriving DecidableEq

/-- A DataFrame: named columns in order. -/
abbrev Df := List (String × ColSeries)

/-- The expression built for one column by `_apply_quantization`: rewritten
cell-wise (nulls propagate) by its selected rule, untouched when non-numeric
or when no rule matches. -/
def quantizeCol (name : String) (c : ColSeries) : ColSeries :=
  match c with
  | .other cells => .other cells
  | .numeric cells =>
    match ruleFor name with
    | some rule => .numeric (cells.map (Option.map (applyRule rule)))
    | none => .numeric cells

/-- `_apply_quantization` over the whole frame (`with_columns` keeps names
and order). -/
def applyQuantization (df : Df) : Df :=
  df.map (fun p => (p.1, quantizeCol p.1 p.2))

/-! ## Output partitioning (`__main__`, lines 404-435) -/

/-- Number of rows held by a column. -/
def colLen : ColSeries → Nat
  | .numeric cells => cells.length
  | .other cells => cells.length

/-- The fixed ordered core column list (lines 404-429). -/
def CORE_COLS : List String :=
  ["timestamp", "datetime_utc", "icao", "df", "typecode", "msg_hash",
   "latitude", "longitude", "position_type", "altitude", "selected_altitude_ft",
   "velocity_gs", "velocity_track", "velocity_vr", "velocity_type",
   "airborne_speed", "airborne_heading", "airborne_vr", "airborne_type",
   "spdhdg_speed", "spdhdg_heading", "baro_pressure_setting", "callsign", "category"]

/-- The join-key column list (line 431). -/
def KEY_COLS : List String := ["timestamp", "datetime_utc", "icao", "msg_hash"]

/-- `data_df.columns`. -/
def dfColumns (df : Df) : List String := df.map Prod.fst

/-- `data_df.select(names)` for names that exist (missing names are skipped;
in the partitioning code every selected name has been filtered for
existence first). -/
def selectDf (df : Df) (names : List String) : Df :=
  names.filterMap (fun n => (dlookup df n).map (fun c => (n, c)))

/-- `core_cols = [c for c in core_cols if c in data_df.columns]`. -/
def coreCols (df : Df) : List String :=
  CORE_COLS.filter (fun c => (dfColumns df).contains c)

/-- `key_cols = [c for c in [...] if c in data_df.columns]`. -/
def keyCols (df : Df) : List String :=
  KEY_COLS.filter (fun c => (dfColumns df).contains c)

/-- `derived_cols = [c for c in data_df.columns if c not in set(core_cols)]`. -/
def derivedCols (df : Df) : List String :=
  (dfColumns df).filter (fun c => ¬ (coreCols df).contains c)

/-- `core_df = data_df.select(core_cols) if core_cols else data_df`. -/
def coreDf (df : Df) : Df :=
  if (coreCols df).isEmpty then df else selectDf df (coreCols df)

/-- `derived_df = data_df.select(key_cols + derived_cols) if derived_cols
else data_df.select(key_cols)`. -/
def derivedDf (df : Df) : Df :=
  if (derivedCols df).isEmpty then selectDf df (keyCols df)
  else selectDf df (keyCols df ++ derivedCols df)

/-- The core/derived split of the flattened, quantized dataset. -/
def partitionDf (df : Df) : Df × Df := (coreDf df, derivedDf df)

/-! ## Concrete instantiations used by scenario theorems and witnesses -/

/-- A DF17 airborne-position even frame (28 hex characters). -/
def msgEven : String := "8d40621d58c382d690c8ac2863a7"

/-- The matching odd frame for the same aircraft. -/
def msgOdd : String := "8d40621d58c386435cc412692ad6"

/-- A decoder slot that always raises. -/
def noDecode : String → String → Except Unit PyVal := fun _ _ => .error ()

/-- A concrete library: every frame is CRC-clean DF17 typecode 11 from
aircraft `40621d`; `oe_flag` reports `msgOdd` as odd and everything else as
even; the two-message airborne decoder succeeds with `(40, -109)`; every
other decoder raises. -/
def scenLib : PMS where
  crc := fun _ => 0
  df := fun _ => 17
  icao := fun _ => some "40621d"
  typecode := fun _ => some 11
  oe_flag := fun m => .ok (if m = msgOdd then 1 else 0)
  adsbF := noDecode
  commbF := noDecode
  bds_infer := fun _ => .error ()
  bdsHas := fun _ => false
  bdsFlag := noDecode
  altcode := fun _ => .error ()
  ca := fun _ => .error ()
  surface_position := fun _ _ _ _ _ _ => .error ()
  airborne_position := fun _ _ _ _ => .ok (40, -109)
  position_with_ref := fun _ _ _ => .error ()
  blake2s8 := fun _ => "0011223344556677"

/-- No reference point configured. -/
def cfg0 : Config := ⟨none, none⟩

/-- Like `scenLib` but every frame carries typecode 29 (a target-state
extended-squitter message, outside `range(5, 23)`). -/
def tc29Lib : PMS := { scenLib with typecode := fun _ => some 29 }

/-- Like `scenLib` but every frame is DF20, every ADS-B decoder returns the
`(None, None)` placeholder, and the Comm-B `wind44` decoder signals
not-applicable by returning `(None, None)` (as pyModeS `wind44` does when the
status bit is unset); all other Comm-B decoders raise. -/
def df20Lib : PMS :=
  { scenLib with
    df := fun _ => 20
    adsbF := fun _ _ => .ok nonePair
    commbF := fun k _ => if k = "wind44" then .ok nonePair else .error () }

/-- Like `scenLib` but the parity-flag extractor raises on every frame. -/
def crashLib : PMS := { scenLib with oe_flag := fun _ => .error () }

/-! ## Counter-key bookkeeping -/

theorem bump_ne (c : String → Nat) (k k' : String) (h : k' ≠ k) : bump c k k' = c k' := by
  simp [bump, h]

theorem bump_self (c : String → Nat) (k : String) : bump c k k = c k + 1 := by
  simp [bump]

/-- No `df{N}` counter key collides with `crc_fail`. -/
theorem crc_fail_ne_df (s : String) : "crc_fail" ≠ "df" ++ s := by
  intro h
  have h2 : "crc_fail".data = ("df" ++ s).data := congrArg String.data h
  rw [String.data_append] at h2
  have h3 : 'c' :: 'r' :: 'c' :: '_' :: 'f' :: 'a' :: 'i' :: 'l' :: [] =
      'd' :: 'f' :: s.data := h2
  injection h3 with h4 _
  exact absurd h4 (by decide)

/-- No `tc{N}` counter key collides with `crc_fail`. -/
theorem crc_fail_ne_tc (s : String) : "crc_fail" ≠ "tc" ++ s := by
  intro h
  have h2 : "crc_fail".data = ("tc" ++ s).data := congrArg String.data h
  rw [String.data_append] at h2
  have h3 : 'c' :: 'r' :: 'c' :: '_' :: 'f' :: 'a' :: 'i' :: 'l' :: [] =
      't' :: 'c' :: s.data := h2
  injection h3 with h4 _
  exact absurd h4 (by decide)

/-- No `bds{code}` counter key collides with `crc_fail`. -/
theorem crc_fail_ne_bds (s : String) : "crc_fail" ≠ "bds" ++ s := by
  intro h
  have h2 : "crc_fail".data = ("bds" ++ s).data := congrArg String.data h
  rw [String.data_append] at h2
  have h3 : 'c' :: 'r' :: 'c' :: '_' :: 'f' :: 'a' :: 'i' :: 'l' :: [] =
      'b' :: 'd' :: 's' :: s.data := h2
  injection h3 with h4 _
  exact absurd h4 (by decide)

/-- For a frame that passes length and checksum validation, no code path ever
touches the `crc_fail` counter (the only bumps are `df…`, `tc…`, `bds…`). -/
theorem counts_crc_fail_of_valid (lib : PMS) (cfg : Config) (st : BeastState)
    (msg : String) (ts : Rat) (hlen : msg.length = 28) (hcrc : lib.crc msg = 0) :
    (resultState (handleMessage lib cfg st (msg, ts))).counts "crc_fail" =
      st.counts "crc_fail" := by
  simp only [handleMessage, hlen, hcrc]
  simp only [ne_eq, not_true_eq_false, if_false, not_false_eq_true, if_true, ite_not]
  by_cases hic : icaoFalsy (lib.icao msg) = true
  · simp [hic, resultState]
  · simp only [hic, if_false, Bool.false_eq_true]
    repeat' split
    all_goals
      simp [resultState, bump_ne, crc_fail_ne_df, crc_fail_ne_tc, crc_fail_ne_bds]

/-- C1: a frame whose hex length is not 28, whose checksum residual is
non-zero, or whose transponder identifier cannot be resolved appends no record
and leaves every counter other than `crc_fail` (in particular every `df{N}`
and `tc{N}` counter) unchanged; and on every frame the `crc_fail` counter is
incremented exactly when the frame has correct length but a non-zero checksum
residual (length failures are not counted at all). -/
theorem c1_invalid_frames_dropped (lib : PMS) (cfg : Config) (st : BeastState)
    (msg : String) (ts : Rat) :
    ((msg.length ≠ 28 ∨ lib.crc msg ≠ 0 ∨ icaoFalsy (lib.icao msg) = true) →
      ∃ st', handleMessage lib cfg st (msg, ts) = Except.ok st' ∧
        st'.records = st.records ∧ st'.position_cache = st.position_cache ∧
        ∀ k, k ≠ "crc_fail" → st'.counts k = st.counts k) ∧
    (resultState (handleMessage lib cfg st (msg, ts))).counts "crc_fail" =
      st.counts "crc_fail" + (if msg.length = 28 ∧ lib.crc msg ≠ 0 then 1 else 0) := by
  constructor
  · intro h
    by_cases hlen : msg.length = 28
    · by_cases hcrc : lib.crc msg = 0
      · have hic : icaoFalsy (lib.icao msg) = true := by
          rcases h with h | h | h
          · exact absurd hlen h
          · exact absurd hcrc h
          · exact h
        exact ⟨st, by simp [handleMessage, hlen, hcrc, hic], rfl, rfl, fun k _ => rfl⟩
      · refine ⟨{ st with counts := bump st.counts "crc_fail" },
          by simp [handleMessage, hlen, hcrc], rfl, rfl, fun k hk => by simp [bump, hk]⟩
    · exact ⟨st, by simp [handleMessage, hlen], rfl, rfl, fun k _ => rfl⟩
  · by_cases hlen : msg.length = 28
    · by_cases hcrc : lib.crc msg = 0
      · rw [counts_crc_fail_of_valid lib cfg st msg ts hlen hcrc]
        simp [hlen, hcrc]
      · simp [handleMessage, hlen, hcrc, resultState, bump_self]
    · simp [handleMessage, hlen, resultState]

/-- Witness for C1 at a concrete invalid frame (wrong length). -/
theorem c1_invalid_frames_dropped_witness :
    ("ab".length ≠ 28 ∨ scenLib.crc "ab" ≠ 0 ∨ icaoFalsy (scenLib.icao "ab") = true) ∧
    (∃ st', handleMessage scenLib cfg0 initState ("ab", 100) = Except.ok st' ∧
      st'.records = initState.records ∧
      st'.position_cache = initState.position_cache ∧
      ∀ k, k ≠ "crc_fail" → st'.counts k = initState.counts k) :=
  ⟨Or.inl (by decide),
   (c1_invalid_frames_dropped scenLib cfg0 initState "ab" 100).1 (Or.inl (by decide))⟩

/-- The pipeline state after an even frame at t=100 and the matching odd frame
at t=105. -/
def runA : BeastState :=
  resultState (handleMessages scenLib cfg0 initState [(msgEven, 100), (msgOdd, 105)])

/-- The pipeline state after an even frame at t=100 and the matching odd frame
at t=112 (gap of 12 seconds, beyond the staleness window). -/
def runB : BeastState :=
  resultState (handleMessages scenLib cfg0 initState [(msgEven, 100), (msgOdd, 112)])

/-- C2: the pairing cache computes a position only when both the even and the
odd slot are populated and their timestamps differ by strictly less than 10
seconds; concretely, an even frame at t=100 paired with the matching odd
frame at t=105 yields a position in the second record, while the same odd
frame at t=112 yields no latitude/longitude/position_type fields at all. -/
theorem c2_position_pairing :
    (∀ (lib : PMS) (cfg : Config) (entry : CacheEntry) (msg : String) (t : Int),
      entry.even = none ∨ entry.odd = none → tryResolve lib cfg entry msg t = none) ∧
    (∀ (lib : PMS) (cfg : Config) (em om msg : String) (ets ots : Rat) (t : Int),
      ¬ |ets - ots| < 10 →
      tryResolve lib cfg ⟨some (em, ets), some (om, ots)⟩ msg t = none) ∧
    (runA.records.length = 2 ∧
     dlookup (runA.records.getD 1 []) "latitude" = some (pRat 40) ∧
     dlookup (runA.records.getD 1 []) "longitude" = some (pRat (-109)) ∧
     dlookup (runA.records.getD 1 []) "position_type" = some (pStr "airborne")) ∧
    (runB.records.length = 2 ∧
     dlookup (runB.records.getD 1 []) "latitude" = none ∧
     dlookup (runB.records.getD 1 []) "longitude" = none ∧
     dlookup (runB.records.getD 1 []) "position_type" = none) := by
  refine ⟨?_, ?_, by decide, by decide⟩
  · rintro lib cfg ⟨e, o⟩ msg t (h | h)
    · subst h; rfl
    · subst h
      cases e with
      | none => rfl
      | some p => rfl
  · intro lib cfg em om msg ets ots t h
    simp [tryResolve, h]

/-- Witness for C2's guard conjuncts at concrete inputs. -/
theorem c2_position_pairing_witness :
    tryResolve scenLib cfg0 ⟨none, none⟩ msgEven 11 = none ∧
    tryResolve scenLib cfg0 ⟨some (msgEven, 100), some (msgOdd, 112)⟩ msgEven 11 = none :=
  ⟨c2_position_pairing.1 scenLib cfg0 ⟨none, none⟩ msgEven 11 (Or.inl rfl),
   c2_position_pairing.2.1 scenLib cfg0 msgEven msgOdd msgEven 100 112 11 (by decide)⟩

/-! ## C7: record flattening -/

theorem dictInsert_of_not_mem {α : Type} (d : List (String × α)) (k : String) (v : α)
    (h : k ∉ d.map Prod.fst) : dictInsert d k v = d ++ [(k, v)] := by
  induction d with
  | nil => rfl
  | cons hd tl ih =>
    obtain ⟨k', v'⟩ := hd
    simp only [List.map_cons, List.mem_cons] at h
    push_neg at h
    simp [dictInsert, Ne.symm h.1, ih h.2]

theorem foldl_dictInsert_eq_append (ps : Rec) :
    ∀ acc : Rec, (acc.map Prod.fst ++ ps.map Prod.fst).Nodup →
    ps.foldl (fun f p => dictInsert f p.1 p.2) acc = acc ++ ps := by
  induction ps with
  | nil => intro acc _; simp
  | cons p ps ih =>
    intro acc h
    obtain ⟨k, v⟩ := p
    have hk : k ∉ acc.map Prod.fst := by
      rcases List.nodup_append.mp h with ⟨_, _, hdisj⟩
      intro hmem
      exact hdisj hmem (by simp)
    rw [List.foldl_cons, dictInsert_of_not_mem acc k v hk,
      ih (acc ++ [(k, v)]) (by simpa [List.append_assoc] using h)]
    simp

theorem flattenRecord_foldl (r : Rec) :
    ∀ acc : Rec,
    r.foldl (fun flat kv => (flatEntryPairs kv.1 kv.2).foldl
        (fun f p => dictInsert f p.1 p.2) flat) acc =
      (flatPairs r).foldl (fun f p => dictInsert f p.1 p.2) acc := by
  induction r with
  | nil => intro acc; rfl
  | cons kv r ih =>
    intro acc
    rw [List.foldl_cons, ih]
    simp [flatPairs, List.foldl_append]

/-- When the generated flat names are pairwise distinct, the dict-overwrite
fold degenerates to plain concatenation of all generated assignments. -/
theorem flattenRecord_eq_flatPairs (r : Rec)
    (h : ((flatPairs r).map Prod.fst).Nodup) : flattenRecord r = flatPairs r := by
  have h1 : flattenRecord r =
      (flatPairs r).foldl (fun f p => dictInsert f p.1 p.2) [] :=
    flattenRecord_foldl r []
  rw [h1, foldl_dictInsert_eq_append (flatPairs r) [] (by simpa using h)]
  simp

theorem mem_posExpand (key : String) (xs : List PyScalar) :
    ∀ (start i : Nat) (hi : i < xs.length),
    (posKey key (start + i), PyVal.scalar (xs.get ⟨i, hi⟩)) ∈ posExpand key start xs := by
  induction xs with
  | nil => intro start i hi; simp at hi
  | cons x xs ih =>
    intro start i hi
    cases i with
    | zero => simp [posExpand]
    | succ n =>
      have hn : n < xs.length := Nat.lt_of_succ_lt_succ hi
      have h2 := ih (start + 1) n hn
      have harith : start + 1 + n = start + (n + 1) := by omega
      rw [harith] at h2
      exact List.mem_cons_of_mem _ h2

theorem mem_zip_get {α β : Type} (as : List α) :
    ∀ (bs : List β) (i : Nat) (ha : i < as.length) (hb : i < bs.length),
    (as.get ⟨i, ha⟩, bs.get ⟨i, hb⟩) ∈ as.zip bs := by
  induction as with
  | nil => intro bs i ha _; simp at ha
  | cons a as ih =>
    intro bs i ha hb
    cases bs with
    | nil => simp at hb
    | cons b bs =>
      cases i with
      | zero => exact List.mem_cons_self _ _
      | succ n =>
        exact List.mem_cons_of_mem _
          (ih bs n (Nat.lt_of_succ_lt_succ ha) (Nat.lt_of_succ_lt_succ hb))

theorem mem_flatEntryPairs (key : String) (xs : List PyScalar) (i : Nat)
    (hi : i < xs.length) :
    (flatKey key i, PyVal.scalar (xs.get ⟨i, hi⟩)) ∈ flatEntryPairs key (.tup xs) := by
  unfold flatEntryPairs flatKey
  cases h : dlookup TUPLE_FIELD_MAP key with
  | none => simpa using mem_posExpand key xs 0 i hi
  | some names =>
    dsimp only
    by_cases hne : names ≠ []
    · rw [if_pos hne, if_pos hne]
      by_cases hlt : i < names.length
      · apply List.mem_append_left
        have hz := mem_zip_get names (xs.map PyVal.scalar) i hlt (by simpa using hi)
        have h1 : names.getD i (posKey key i) = names.get ⟨i, hlt⟩ := by
          simp [List.getD_eq_getElem?_getD, List.getElem?_eq_getElem hlt]
        have h2 : (xs.map PyVal.scalar).get ⟨i, by simpa using hi⟩ =
            PyVal.scalar (xs.get ⟨i, hi⟩) := by
          simp
        rw [h1]
        rw [h2] at hz
        exact hz
      · apply List.mem_append_right
        push_neg at hlt
        have hlen : i - names.length < (xs.drop names.length).length := by
          simp [List.length_drop]
          omega
        have h3 := mem_posExpand key (xs.drop names.length) names.length
          (i - names.length) hlen
        have harith : names.length + (i - names.length) = i := by omega
        rw [harith] at h3
        have h4 : (xs.drop names.length).get ⟨i - names.length, hlen⟩ =
            xs.get ⟨i, hi⟩ := by
          simp [List.get_eq_getElem, List.getElem_drop, harith]
        rw [h4] at h3
        have h5 : names.getD i (posKey key i) = posKey key i :=
          List.getD_eq_default _ _ hlt
        rw [h5]
        exact h3
    · rw [if_neg hne, if_neg hne]
      simpa using mem_posExpand key xs 0 i hi

/-- C7 counterexample: in the record
`{'velocity': (1, 2, 3, 'GS'), 'velocity_gs': 99}` the scalar field
`velocity_gs` overwrites the name-table expansion of the `velocity` tuple,
so the tuple's first element (the value 1) appears nowhere in the flattened
output: flattening is not total on every record. -/
theorem c7_flattening_counterexample :
    ("velocity", PyVal.tup [.sInt 1, .sInt 2, .sInt 3, .sStr "GS"]) ∈
      ([("velocity", PyVal.tup [.sInt 1, .sInt 2, .sInt 3, .sStr "GS"]),
        ("velocity_gs", pInt 99)] : Rec) ∧
    (∀ p ∈ flattenRecord
      ([("velocity", PyVal.tup [.sInt 1, .sInt 2, .sInt 3, .sStr "GS"]),
        ("velocity_gs", pInt 99)] : Rec), p.2 ≠ pInt 1) := by decide

/-- C7 (amended): flattening is deterministic (it is a pure function of the
record), and for every record whose generated flat names are pairwise
distinct — which holds for all records the pipeline itself constructs — it is
total: the dict fold equals the full concatenation of generated assignments,
every scalar field passes through unchanged, and element `i` of every
multi-valued field is present under its table name (position-`i` name when
the table entry is missing or exhausted). -/
theorem c7_flattening_amended (r : Rec)
    (h : ((flatPairs r).map Prod.fst).Nodup) :
    flattenRecord r = flatPairs r ∧
    (∀ key s, (key, PyVal.scalar s) ∈ r → (key, PyVal.scalar s) ∈ flattenRecord r) ∧
    (∀ key xs, (key, PyVal.tup xs) ∈ r → ∀ i, (hi : i < xs.length) →
      (flatKey key i, PyVal.scalar (xs.get ⟨i, hi⟩)) ∈ flattenRecord r) := by
  have heq := flattenRecord_eq_flatPairs r h
  refine ⟨heq, ?_, ?_⟩
  · intro key s hmem
    rw [heq]
    exact List.mem_flatMap.mpr ⟨(key, .scalar s), hmem, by simp [flatEntryPairs]⟩
  · intro key xs hmem i hi
    rw [heq]
    exact List.mem_flatMap.mpr ⟨(key, .tup xs), hmem, mem_flatEntryPairs key xs i hi⟩

/-- Witness for C7's amended theorem at a concrete collision-free record. -/
theorem c7_flattening_amended_witness :
    flattenRecord ([("callsign", pStr "ABC"),
        ("velocity", PyVal.tup [.sInt 1, .sInt 2])] : Rec) =
      flatPairs ([("callsign", pStr "ABC"),
        ("velocity", PyVal.tup [.sInt 1, .sInt 2])] : Rec) ∧
    ("callsign", pStr "ABC") ∈ flattenRecord ([("callsign", pStr "ABC"),
        ("velocity", PyVal.tup [.sInt 1, .sInt 2])] : Rec) := by
  have h := c7_flattening_amended
    ([("callsign", pStr "ABC"), ("velocity", PyVal.tup [.sInt 1, .sInt 2])] : Rec)
    (by decide)
  exact ⟨h.1, h.2.1 "callsign" (.sStr "ABC") (by decide)⟩

/-! ## C6: quantization idempotence -/

theorem roundHalfAway_intCast (k : Int) : roundHalfAway (k : Rat) = k := by
  have h12 : ⌊(1 / 2 : Rat)⌋ = 0 := by norm_num
  unfold roundHalfAway
  split_ifs with h
  · rw [Int.floor_int_add, h12]
    omega
  · rw [show (-(k : Rat) + 1 / 2) = ((-k : Int) : Rat) + 1 / 2 by push_cast; ring,
      Int.floor_int_add, h12]
    omega

theorem stepQuant_idem (s : Rat) (hs : s ≠ 0) (x : Rat) :
    stepQuant s (stepQuant s x) = stepQuant s x := by
  unfold stepQuant
  rw [mul_div_cancel_right₀ _ hs, roundHalfAway_intCast]

theorem decQuant_idem (d : Nat) (x : Rat) :
    decQuant d (decQuant d x) = decQuant d x := by
  unfold decQuant
  rw [div_mul_cancel₀ _ (by positivity : ((10 : Rat) ^ d) ≠ 0), roundHalfAway_intCast]

/-- Every rule `ruleFor` can select is a fixed point of itself (step rules in
the table have non-zero steps; decimal rounding is always idempotent). -/
theorem applyRule_ruleFor_idem (col : String) (rule : QRule)
    (h : ruleFor col = some rule) (x : Rat) :
    applyRule rule (applyRule rule x) = applyRule rule x := by
  unfold ruleFor at h
  rcases hf : STEP_QUANTIZATION.find? (fun p => matchesAny col p.1) with _ | p
  · rw [hf] at h
    rcases hf2 : DECIMAL_QUANTIZATION.find? (fun p => matchesAny col p.1) with _ | q
    · rw [hf2] at h
      exact absurd h (by simp)
    · rw [hf2] at h
      injection h with h'
      subst h'
      exact decQuant_idem q.2 x
  · rw [hf] at h
    injection h with h'
    subst h'
    have hp := List.mem_of_find?_eq_some hf
    have hs : p.2 ≠ (0 : Rat) := by
      have hall : ∀ q ∈ STEP_QUANTIZATION, q.2 ≠ (0 : Rat) := by decide
      exact hall p hp
    exact stepQuant_idem p.2 hs x

theorem quantizeCol_idem (name : String) (c : ColSeries) :
    quantizeCol name (quantizeCol name c) = quantizeCol name c := by
  cases c with
  | other cells => rfl
  | numeric cells =>
    cases h : ruleFor name with
    | none => simp [quantizeCol, h]
    | some rule =>
      simp only [quantizeCol, h, List.map_map]
      apply congrArg
      apply List.map_congr_left
      intro oc _
      cases oc with
      | none => rfl
      | some x => simp [applyRule_ruleFor_idem name rule h x]

/-- C6: quantization is idempotent — applying `_apply_quantization` twice to
any flattened dataset yields exactly the dataset obtained by applying it
once (each numeric column is rewritten by at most one rule, selected by
first substring match in step-then-decimal priority, and that rewrite is a
fixed point of itself). -/
theorem c6_quantization_idempotent (df : Df) :
    applyQuantization (applyQuantization df) = applyQuantization df := by
  unfold applyQuantization
  rw [List.map_map]
  apply List.map_congr_left
  intro p _
  simp [Function.comp, quantizeCol_idem]

/-! ## C8: partitioning -/

theorem dlookup_isSome_of_mem_columns {α : Type} (d : List (String × α)) (k : String)
    (h : k ∈ d.map Prod.fst) : (dlookup d k).isSome := by
  induction d with
  | nil => simp at h
  | cons hd tl ih =>
    obtain ⟨k', v'⟩ := hd
    by_cases hk : k' = k
    · simp [dlookup, hk]
    · simp only [List.map_cons, List.mem_cons] at h
      rcases h with h | h

      · exact absurd h.symm hk
      · simp [dlookup, hk, ih h]

theorem mem_of_dlookup_eq_some {α : Type} (d : List (String × α)) (k : String) (v : α)
    (h : dlookup d k = some v) : (k, v) ∈ d := by
  induction d with
  | nil => simp [dlookup] at h
  | cons hd tl ih =>
    obtain ⟨k', v'⟩ := hd
    by_cases hk : k' = k
    · subst hk
      simp [dlookup] at h
      simp [h]
    · simp [dlookup, hk] at h
      exact List.mem_cons_of_mem _ (ih h)

theorem dlookup_selectDf (df : Df) (ns : List String) (k : String)
    (hk : k ∈ ns) (hs : (dlookup df k).isSome) :
    dlookup (selectDf df ns) k = dlookup df k := by
  induction ns with
  | nil => simp at hk
  | cons n ns ih =>
    by_cases hn : n = k
    · subst hn
      rcases ho : dlookup df n with _ | c
      · rw [ho] at hs; simp at hs
      · simp [selectDf, ho, dlookup]
    · have hk' : k ∈ ns := by
        rcases List.mem_cons.mp hk with h | h
        · exact absurd h.symm hn
        · exact h
      rcases ho : dlookup df n with _ | c
      · simpa [selectDf, ho] using ih hk'
      · simpa [selectDf, ho, dlookup, hn] using ih hk'

theorem mem_selectDf (df : Df) (ns : List String) (p : String × ColSeries)
    (h : p ∈ selectDf df ns) : p.1 ∈ ns ∧ dlookup df p.1 = some p.2 := by
  rcases List.mem_filterMap.mp h with ⟨n, hn, he⟩
  rcases ho : dlookup df n with _ | c
  · rw [ho] at he; simp at he
  · rw [ho] at he
    have he2 : (n, c) = p := by simpa using he
    subst he2
    exact ⟨hn, ho⟩

theorem selectDf_ne_nil (df : Df) (ns : List String) (k : String)
    (hk : k ∈ ns) (hs : (dlookup df k).isSome) : selectDf df ns ≠ [] := by
  intro h0
  have h1 := dlookup_selectDf df ns k hk hs
  rw [h0] at h1
  simp only [dlookup] at h1
  rw [← h1] at hs
  simp at hs

/-- C8: for a dataset that carries the four join-key columns (as every
non-empty flattened dataset produced by the pipeline does) and is rectangular
with `n` rows, partitioning preserves the row count in both outputs, both
outputs are non-empty, every join-key column is carried unchanged into both
outputs, and any column present in both outputs is a join-key column. -/
theorem c8_partition_preserves (df : Df) (n : Nat)
    (hlen : ∀ p ∈ df, colLen p.2 = n)
    (ht : "timestamp" ∈ dfColumns df) (hd : "datetime_utc" ∈ dfColumns df)
    (hi : "icao" ∈ dfColumns df) (hm : "msg_hash" ∈ dfColumns df) :
    (∀ p ∈ (partitionDf df).1, colLen p.2 = n) ∧
    (∀ p ∈ (partitionDf df).2, colLen p.2 = n) ∧
    (partitionDf df).1 ≠ [] ∧ (partitionDf df).2 ≠ [] ∧
    (∀ k ∈ KEY_COLS, dlookup (partitionDf df).1 k = dlookup df k ∧
                     dlookup (partitionDf df).2 k = dlookup df k) ∧
    (∀ c, c ∈ dfColumns (partitionDf df).1 → c ∈ dfColumns (partitionDf df).2 →
      c ∈ KEY_COLS) := by
  have hkey_enum : ∀ k ∈ KEY_COLS, k = "timestamp" ∨ k = "datetime_utc" ∨
      k = "icao" ∨ k = "msg_hash" := by decide
  have hkey_mem : ∀ k ∈ KEY_COLS, k ∈ dfColumns df := by
    intro k hk
    rcases hkey_enum k hk with h | h | h | h <;> subst h <;> assumption
  have hkey_cols : keyCols df = KEY_COLS := by
    unfold keyCols
    rw [List.filter_eq_self]
    intro a ha
    exact List.elem_iff.mpr (hkey_mem a ha)
  have htc : "timestamp" ∈ coreCols df := by
    rw [coreCols, List.mem_filter]
    exact ⟨by decide, List.elem_iff.mpr ht⟩
  have hcore_ne : ¬ (coreCols df).isEmpty := by
    intro h0
    rw [List.isEmpty_iff] at h0
    rw [h0] at htc
    simp at htc
  have hcore_eq : coreDf df = selectDf df (coreCols df) := by
    simp [coreDf, hcore_ne]
  have hkey_sub_core : ∀ k ∈ KEY_COLS, k ∈ coreCols df := by
    intro k hk
    have h1 : k ∈ CORE_COLS := (by decide : ∀ k ∈ KEY_COLS, k ∈ CORE_COLS) k hk
    rw [coreCols, List.mem_filter]
    exact ⟨h1, List.elem_iff.mpr (hkey_mem k hk)⟩
  have hkey_some : ∀ k ∈ KEY_COLS, (dlookup df k).isSome := by
    intro k hk
    exact dlookup_isSome_of_mem_columns df k (hkey_mem k hk)
  have hlen_sel : ∀ ns, ∀ p ∈ selectDf df ns, colLen p.2 = n := by
    intro ns p hp
    exact hlen p (mem_of_dlookup_eq_some df p.1 p.2 (mem_selectDf df ns p hp).2)
  have hkey_in_derived_ns : ∀ k ∈ KEY_COLS, k ∈ keyCols df ++ derivedCols df := by
    intro k hk
    apply List.mem_append_left
    rw [hkey_cols]
    exact hk
  refine ⟨?_, ?_, ?_, ?_, ?_, ?_⟩
  · intro p hp
    dsimp only [partitionDf] at hp
    rw [hcore_eq] at hp
    exact hlen_sel _ p hp
  · intro p hp
    dsimp only [partitionDf] at hp
    rw [derivedDf] at hp
    split_ifs at hp
    · exact hlen_sel _ p hp
    · exact hlen_sel _ p hp
  · show coreDf df ≠ []
    rw [hcore_eq]
    exact selectDf_ne_nil df _ "timestamp" htc
      (hkey_some "timestamp" (by decide))
  · show derivedDf df ≠ []
    rw [derivedDf]
    split_ifs
    · refine selectDf_ne_nil df _ "timestamp" ?_ (hkey_some "timestamp" (by decide))
      rw [hkey_cols]; decide
    · refine selectDf_ne_nil df _ "timestamp" ?_ (hkey_some "timestamp" (by decide))
      exact hkey_in_derived_ns "timestamp" (by decide)
  · intro k hk
    constructor
    · show dlookup (coreDf df) k = dlookup df k
      rw [hcore_eq]
      exact dlookup_selectDf df _ k (hkey_sub_core k hk) (hkey_some k hk)
    · show dlookup (derivedDf df) k = dlookup df k
      rw [derivedDf]
      split_ifs
      · exact dlookup_selectDf df _ k (by rw [hkey_cols]; exact hk) (hkey_some k hk)
      · exact dlookup_selectDf df _ k (hkey_in_derived_ns k hk) (hkey_some k hk)
  · intro c hc1 hc2
    have hc1' : c ∈ coreCols df := by
      dsimp only [partitionDf] at hc1
      rw [hcore_eq] at hc1
      rcases List.mem_map.mp hc1 with ⟨p, hp, rfl⟩
      exact (mem_selectDf df _ p hp).1
    have hc2' : c ∈ keyCols df ++ derivedCols df := by
      dsimp only [partitionDf] at hc2
      rw [derivedDf] at hc2
      split_ifs at hc2
      · rcases List.mem_map.mp hc2 with ⟨p, hp, rfl⟩
        exact List.mem_append_left _ (mem_selectDf df _ p hp).1
      · rcases List.mem_map.mp hc2 with ⟨p, hp, rfl⟩
        exact (mem_selectDf df _ p hp).1
    rcases List.mem_append.mp hc2' with h | h
    · rw [hkey_cols] at h
      exact h
    · exfalso
      rcases List.mem_filter.mp h with ⟨_, hnc⟩
      simp only [decide_eq_true_eq] at hnc
      exact hnc (List.elem_iff.mpr hc1')

/-- Witness for C8 at a concrete two-column, one-row dataset. -/
theorem c8_partition_preserves_witness :
    (∀ p ∈ (partitionDf
      [("timestamp", ColSeries.numeric [some 100]),
       ("datetime_utc", ColSeries.other [pDt 100]),
       ("icao", ColSeries.other [pStr "40621d"]),
       ("msg_hash", ColSeries.other [pStr "0011223344556677"]),
       ("is_emergency", ColSeries.other [pBool false])]).1, colLen p.2 = 1) ∧
    (∀ c, c ∈ dfColumns (partitionDf
      [("timestamp", ColSeries.numeric [some 100]),
       ("datetime_utc", ColSeries.other [pDt 100]),
       ("icao", ColSeries.other [pStr "40621d"]),
       ("msg_hash", ColSeries.other [pStr "0011223344556677"]),
       ("is_emergency", ColSeries.other [pBool false])]).1 →
      c ∈ dfColumns (partitionDf
      [("timestamp", ColSeries.numeric [some 100]),
       ("datetime_utc", ColSeries.other [pDt 100]),
       ("icao", ColSeries.other [pStr "40621d"]),
       ("msg_hash", ColSeries.other [pStr "0011223344556677"]),
       ("is_emergency", ColSeries.other [pBool false])]).2 →
      c ∈ KEY_COLS) := by
  have h := c8_partition_preserves
    [("timestamp", ColSeries.numeric [some 100]),
     ("datetime_utc", ColSeries.other [pDt 100]),
     ("icao", ColSeries.other [pStr "40621d"]),
     ("msg_hash", ColSeries.other [pStr "0011223344556677"]),
     ("is_emergency", ColSeries.other [pBool false])] 1
    (by decide) (by decide) (by decide) (by decide) (by decide)
  exact ⟨h.1, h.2.2.2.2.2⟩

/-! ## C10: a zero reference coordinate is treated as unconfigured -/

theorem tryFallback_zero (lib : PMS) (la? lo? : Option Rat) (msg : String)
    (h : la? = some 0 ∨ lo? = some 0) :
    tryFallback lib ⟨la?, lo?⟩ msg = none := by
  rcases h with h | h
  · subst h
    cases lo? with
    | none => rfl
    | some lo => simp [tryFallback]
  · subst h
    cases la? with
    | none => rfl
    | some la => simp [tryFallback]

theorem tryResolve_zero_cfg (lib : PMS) (la? lo? : Option Rat) (entry : CacheEntry)
    (msg : String) (t : Int) (h : la? = some 0 ∨ lo? = some 0) :
    tryResolve lib ⟨la?, lo?⟩ entry msg t = tryResolve lib ⟨none, none⟩ entry msg t := by
  obtain ⟨e, o⟩ := entry
  cases e with
  | none => rfl
  | some pe =>
    cases o with
    | none => rfl
    | some po =>
      obtain ⟨em, ets⟩ := pe
      obtain ⟨om, ots⟩ := po
      simp only [tryResolve]
      split_ifs with h10 h58
      · rcases h with h | h
        · subst h
          cases lo? with
          | none => rfl
          | some lo => simp
        · subst h
          cases la? with
          | none => rfl
          | some la => simp
      · cases hab : lib.airborne_position em om ets ots with
        | ok p => rfl
        | error e =>
          show tryFallback lib ⟨la?, lo?⟩ msg = tryFallback lib ⟨none, none⟩ msg
          rw [tryFallback_zero lib la? lo? msg h]
          rfl
      · rfl

theorem tryResolve_none_cfg_surface (lib : PMS) (entry : CacheEntry)
    (msg : String) (t : Int) (h58 : 5 ≤ t ∧ t ≤ 8) :
    tryResolve lib ⟨none, none⟩ entry msg t = none := by
  obtain ⟨e, o⟩ := entry
  cases e with
  | none => rfl
  | some pe =>
    cases o with
    | none => rfl
    | some po =>
      obtain ⟨em, ets⟩ := pe
      obtain ⟨om, ots⟩ := po
      simp only [tryResolve]
      split_ifs with h10
      · rfl
      · rfl

theorem tryResolve_none_cfg_not_withref (lib : PMS) (entry : CacheEntry)
    (msg : String) (t : Int) (la lo : Rat) :
    tryResolve lib ⟨none, none⟩ entry msg t ≠ some (la, lo, "with_ref") := by
  obtain ⟨e, o⟩ := entry
  cases e with
  | none => simp [tryResolve]
  | some pe =>
    cases o with
    | none =>
      obtain ⟨em, ets⟩ := pe
      simp [tryResolve]
    | some po =>
      obtain ⟨em, ets⟩ := pe
      obtain ⟨om, ots⟩ := po
      simp only [tryResolve]
      split_ifs with h10 hta
      · simp
      · cases hab : lib.airborne_position em om ets ots with
        | ok p => simp
        | error e => simp [tryFallback]
      · simp

/-- C10: a configured reference latitude or longitude equal to 0 is treated
exactly as if no reference point were configured: position resolution behaves
identically to the none/none configuration, surface frames (typecode 5-8)
never produce a position, and the single-message reference-relative fallback
(`position_type = "with_ref"`) is never used. -/
theorem c10_zero_reference_unconfigured (lib : PMS) (la? lo? : Option Rat)
    (entry : CacheEntry) (msg : String) (t : Int)
    (h : la? = some 0 ∨ lo? = some 0) :
    tryResolve lib ⟨la?, lo?⟩ entry msg t = tryResolve lib ⟨none, none⟩ entry msg t ∧
    (5 ≤ t ∧ t ≤ 8 → tryResolve lib ⟨la?, lo?⟩ entry msg t = none) ∧
    (∀ la lo, tryResolve lib ⟨la?, lo?⟩ entry msg t ≠ some (la, lo, "with_ref")) := by
  have heq := tryResolve_zero_cfg lib la? lo? entry msg t h
  refine ⟨heq, ?_, ?_⟩
  · intro h58
    rw [heq]
    exact tryResolve_none_cfg_surface lib entry msg t h58
  · intro la lo
    rw [heq]
    exact tryResolve_none_cfg_not_withref lib entry msg t la lo

/-- Witness for C10 at a concrete zero-latitude configuration. -/
theorem c10_zero_reference_unconfigured_witness :
    tryResolve scenLib ⟨some 0, some (-109)⟩
        ⟨some (msgEven, 100), some (msgOdd, 105)⟩ msgEven 6 =
      tryResolve scenLib ⟨none, none⟩
        ⟨some (msgEven, 100), some (msgOdd, 105)⟩ msgEven 6 ∧
    tryResolve scenLib ⟨some 0, some (-109)⟩
        ⟨some (msgEven, 100), some (msgOdd, 105)⟩ msgEven 6 = none :=
  ⟨(c10_zero_reference_unconfigured scenLib (some 0) (some (-109))
      ⟨some (msgEven, 100), some (msgOdd, 105)⟩ msgEven 6 (Or.inl rfl)).1,
   (c10_zero_reference_unconfigured scenLib (some 0) (some (-109))
      ⟨some (msgEven, 100), some (msgOdd, 105)⟩ msgEven 6 (Or.inl rfl)).2.1
     (by decide)⟩

/-! ## C4: delegation to the position pairing cache -/

theorem handlePositionCore_spec (lib : PMS) (cfg : Config)
    (cache : List (String × CacheEntry)) (r : Rec) (msg : String) (ts : Rat)
    (icao : String) (t : Int) (oe : Int) :
    dlookup (handlePositionCore lib cfg cache r msg ts icao t oe).2 "oe_flag" =
      some (pInt oe) ∧
    ∃ e, dlookup (handlePositionCore lib cfg cache r msg ts icao t oe).1 icao = some e ∧
      (if oe = 0 then e.even else e.odd) = some (msg, ts) := by
  simp only [handlePositionCore]
  cases htr : tryResolve lib cfg
      (updEntry ((dlookup cache icao).getD ⟨none, none⟩) oe msg ts) msg t with
  | none =>
    refine ⟨dlookup_dictInsert_self r "oe_flag" (pInt oe),
      _, dlookup_dictInsert_self cache icao _, ?_⟩
    unfold updEntry
    by_cases h0 : oe = 0 <;> simp [h0]
  | some p =>
    obtain ⟨la, q⟩ := p
    obtain ⟨lo, pt⟩ := q
    refine ⟨?_, _, dlookup_dictInsert_self cache icao _, ?_⟩
    · rw [dlookup_dictInsert_ne _ _ _ _ (by decide),
        dlookup_dictInsert_ne _ _ _ _ (by decide),
        dlookup_dictInsert_ne _ _ _ _ (by decide)]
      exact dlookup_dictInsert_self r "oe_flag" (pInt oe)
    · unfold updEntry
      by_cases h0 : oe = 0 <;> simp [h0]

theorem handlePosition_valid (lib : PMS) (cfg : Config)
    (cache : List (String × CacheEntry)) (r : Rec) (msg : String) (ts : Rat)
    (icao : String) (t : Int) (oe : Int)
    (h5 : 5 ≤ t) (h23 : t < 23) (hoe : lib.oe_flag msg = Except.ok oe) :
    handlePosition lib cfg cache r msg ts icao (some t) =
      Except.ok (handlePositionCore lib cfg cache r msg ts icao t oe) := by
  simp only [handlePosition]
  rw [if_pos ⟨h5, h23⟩, hoe]

/-- C4 counterexample: a CRC-clean classified DF17 frame with typecode 29
(which is "at least 5") is NOT delegated to the pairing cache — the code's
guard is `tc in range(5, 23)` — so a record is appended but no cache slot for
its transponder identifier is ever written. -/
theorem c4_delegation_counterexample :
    tc29Lib.df msgEven = 17 ∧ tc29Lib.typecode msgEven = some 29 ∧ (5 : Int) ≤ 29 ∧
    (resultState (handleMessage tc29Lib cfg0 initState (msgEven, 100))).records.length = 1 ∧
    (resultState (handleMessage tc29Lib cfg0 initState (msgEven, 100))).position_cache
      = [] := by decide

/-- C4 (amended): for every classified DF17/DF18 frame whose typecode `t`
satisfies `5 ≤ t < 23` (Python `tc in range(5, 23)`, not every `t ≥ 5`) and
whose parity flag extraction succeeds, the frame is delegated to the pairing
cache: the parity flag is recorded in the appended record and the matching
parity slot of this aircraft's cache entry is overwritten with
`(frame, timestamp)`. -/
theorem c4_delegation_amended (lib : PMS) (cfg : Config) (st : BeastState)
    (msg : String) (ts : Rat) (icao : String) (t oe : Int)
    (hlen : msg.length = 28) (hcrc : lib.crc msg = 0)
    (hic : lib.icao msg = some icao) (hne : icao ≠ "")
    (hdf : lib.df msg = 17 ∨ lib.df msg = 18)
    (htc : lib.typecode msg = some t) (h5 : 5 ≤ t) (h23 : t < 23)
    (hoe : lib.oe_flag msg = Except.ok oe) :
    ∃ st' r', handleMessage lib cfg st (msg, ts) = Except.ok st' ∧
      st'.records = st.records ++ [r'] ∧
      dlookup r' "oe_flag" = some (pInt oe) ∧
      ∃ e, dlookup st'.position_cache icao = some e ∧
        (if oe = 0 then e.even else e.odd) = some (msg, ts) := by
  have h1 : ¬ (msg.length ≠ 28) := by simp [hlen]
  have h2 : ¬ (lib.crc msg ≠ 0) := by simp [hcrc]
  have h3 : icaoFalsy (some icao) = false := by
    cases hE : icao.isEmpty with
    | false => simp [icaoFalsy, hE]
    | true => exact absurd ((String.isEmpty_iff icao).mp hE) hne
  have htcp : tcInPos (some t) = true := by simp [tcInPos, h5, h23]
  simp only [handleMessage]
  rw [if_neg h1, if_neg h2, hic]
  rw [if_neg (by simp [h3])]
  simp only [Option.getD_some]
  rw [if_pos hdf, htc]
  rw [if_pos htcp]
  rw [handlePosition_valid lib cfg st.position_cache _ msg ts icao t oe h5 h23 hoe]
  exact ⟨_, _, rfl, rfl,
    (handlePositionCore_spec lib cfg st.position_cache _ msg ts icao t oe).1,
    (handlePositionCore_spec lib cfg st.position_cache _ msg ts icao t oe).2⟩

/-- Witness for C4's amended theorem at a concrete typecode-11 even frame. -/
theorem c4_delegation_amended_witness :
    ∃ st' r', handleMessage scenLib cfg0 initState (msgEven, 100) = Except.ok st' ∧
      st'.records = initState.records ++ [r'] ∧
      dlookup r' "oe_flag" = some (pInt 0) ∧
      ∃ e, dlookup st'.position_cache "40621d" = some e ∧
        (if (0 : Int) = 0 then e.even else e.odd) = some (msgEven, 100) :=
  c4_delegation_amended scenLib cfg0 initState msgEven 100 "40621d" 11 0
    (by decide) (by decide) (by decide) (by decide) (Or.inl rfl)
    (by decide) (by decide) (by decide) (by decide)

/-! ## C9: latitude, longitude and position_type travel together -/

/-- The three position fields written by the resolution block. -/
def POS_KEYS : List String := ["latitude", "longitude", "position_type"]

/-- The consistency property of one record: a latitude is always accompanied
by a longitude and by one of the three position_type tags. -/
def latInv (r : Rec) : Prop :=
  (dlookup r "latitude").isSome →
    (dlookup r "longitude").isSome ∧
    (dlookup r "position_type" = some (pStr "surface") ∨
     dlookup r "position_type" = some (pStr "airborne") ∨
     dlookup r "position_type" = some (pStr "with_ref"))

theorem dlookup_foldl_of_step (step : Rec → String → Rec) (k : String) :
    ∀ (L : List String) (r : Rec),
      (∀ j ∈ L, ∀ r', dlookup (step r' j) k = dlookup r' k) →
      dlookup (L.foldl step r) k = dlookup r k := by
  intro L
  induction L with
  | nil => intro r _; rfl
  | cons j L ih =>
    intro r h
    rw [List.foldl_cons, ih (step r j) (fun j' hj' r' => h j' (List.mem_cons_of_mem _ hj') r'),
      h j (List.mem_cons_self _ _) r]

theorem dlookup_adsbFold (lib : PMS) (msg : String) (r : Rec) (k : String)
    (hk : k ∉ ADSB_KEYS) : dlookup (adsbFold lib msg r) k = dlookup r k := by
  apply dlookup_foldl_of_step
  intro j hj r'
  unfold adsbStep
  cases adsbResult lib msg j with
  | none => rfl
  | some v =>
    exact dlookup_dictInsert_ne r' j v k (fun he => hk (he ▸ hj))

theorem dlookup_commbFold (lib : PMS) (msg : String) (r : Rec) (k : String)
    (hk : k ∉ COMMB_KEYS) : dlookup (commbFold lib msg r) k = dlookup r k := by
  apply dlookup_foldl_of_step
  intro j hj r'
  unfold commbStep
  cases commbResult lib msg j with
  | none => rfl
  | some v =>
    exact dlookup_dictInsert_ne r' j v k (fun he => hk (he ▸ hj))

theorem dlookup_bdsFold (lib : PMS) (msg : String) (r : Rec) (k : String)
    (hk : ∀ name ∈ BDS_NAMES, k ≠ "is" ++ name.drop 3) :
    dlookup (bdsFold lib msg r) k = dlookup r k := by
  apply dlookup_foldl_of_step
  intro j hj r'
  unfold bdsStep
  by_cases hb : lib.bdsHas j = true
  · rw [if_pos hb]
    cases lib.bdsFlag j msg with
    | ok v => exact dlookup_dictInsert_ne r' _ v k (hk j hj)
    | error e => rfl
  · rw [if_neg hb]

theorem dlookup_baseRec_posKey (lib : PMS) (msg : String) (ts : Rat) (dfv : Nat)
    (icao : String) (k : String) (hk : k ∈ POS_KEYS) :
    dlookup (baseRec lib msg ts dfv icao) k = none := by
  fin_cases hk <;> simp [baseRec, dlookup]

theorem dlookup_df17Rec_posKey (lib : PMS) (msg : String) (ts : Rat) (dfv : Nat)
    (icao : String) (tc : Option Int) (k : String) (hk : k ∈ POS_KEYS) :
    dlookup (adsbFold lib msg
      (dictInsert (baseRec lib msg ts dfv icao) "typecode" (tcPyVal tc))) k = none := by
  rw [dlookup_adsbFold lib msg _ k (by fin_cases hk <;> decide),
    dlookup_dictInsert_ne _ _ _ _ (by fin_cases hk <;> decide)]
  exact dlookup_baseRec_posKey lib msg ts dfv icao k hk

theorem tryFallback_pt (lib : PMS) (cfg : Config) (msg : String) (la lo : Rat)
    (pt : String) (h : tryFallback lib cfg msg = some (la, lo, pt)) :
    pt = "with_ref" := by
  obtain ⟨rl, ro⟩ := cfg
  cases rl with
  | none => simp [tryFallback] at h
  | some a =>
    cases ro with
    | none => simp [tryFallback] at h
    | some b =>
      simp only [tryFallback] at h
      split_ifs at h with hz
      · cases hw : lib.position_with_ref msg a b with
        | ok p =>
          obtain ⟨x, y⟩ := p
          rw [hw] at h
          simp at h
          exact h.2.2.symm
        | error e =>
          rw [hw] at h
          simp at h

theorem tryResolve_pt (lib : PMS) (cfg : Config) (entry : CacheEntry) (msg : String)
    (t : Int) (la lo : Rat) (pt : String)
    (h : tryResolve lib cfg entry msg t = some (la, lo, pt)) :
    pt = "surface" ∨ pt = "airborne" ∨ pt = "with_ref" := by
  obtain ⟨e, o⟩ := entry
  cases e with
  | none => simp [tryResolve] at h
  | some pe =>
    cases o with
    | none =>
      obtain ⟨em, ets⟩ := pe
      simp [tryResolve] at h
    | some po =>
      obtain ⟨em, ets⟩ := pe
      obtain ⟨om, ots⟩ := po
      simp only [tryResolve] at h
      split_ifs at h with h10 h58
      · obtain ⟨rl, ro⟩ := cfg
        cases rl with
        | none => simp at h
        | some a =>
          cases ro with
          | none => simp at h
          | some b =>
            dsimp only at h
            split_ifs at h with hz
            · cases hs : lib.surface_position em om ets ots a b with
              | ok p =>
                obtain ⟨x, y⟩ := p
                rw [hs] at h
                simp at h
                exact Or.inl h.2.2.symm
              | error e2 =>
                rw [hs] at h
                exact Or.inr (Or.inr (tryFallback_pt lib ⟨some a, some b⟩ msg la lo pt h))
      · cases ha : lib.airborne_position em om ets ots with
        | ok p =>
          obtain ⟨x, y⟩ := p
          rw [ha] at h
          simp at h
          exact Or.inr (Or.inl h.2.2.symm)
        | error e2 =>
          rw [ha] at h
          exact Or.inr (Or.inr (tryFallback_pt lib cfg msg la lo pt h))

theorem handlePosition_latInv (lib : PMS) (cfg : Config)
    (cache : List (String × CacheEntry)) (r : Rec) (msg : String) (ts : Rat)
    (icao : String) (tc : Option Int) (cache' : List (String × CacheEntry)) (r' : Rec)
    (hr : ∀ k ∈ POS_KEYS, dlookup r k = none)
    (heq : handlePosition lib cfg cache r msg ts icao tc = Except.ok (cache', r')) :
    latInv r' := by
  unfold handlePosition at heq
  cases tc with
  | none =>
    injection heq with h2
    injection h2 with hcc hrr
    subst hrr
    intro hlat
    rw [hr "latitude" (by decide)] at hlat
    simp at hlat
  | some t =>
    dsimp only at heq
    by_cases hg : 5 ≤ t ∧ t < 23
    · rw [if_pos hg] at heq
      cases hoe : lib.oe_flag msg with
      | error e =>
        rw [hoe] at heq
        simp at heq
      | ok oe =>
        rw [hoe] at heq
        injection heq with h2
        have hrr : (handlePositionCore lib cfg cache r msg ts icao t oe).2 = r' :=
          congrArg Prod.snd h2
        subst hrr
        simp only [handlePositionCore]
        cases htr : tryResolve lib cfg
            (updEntry ((dlookup cache icao).getD ⟨none, none⟩) oe msg ts) msg t with
        | none =>
          show latInv (dictInsert r "oe_flag" (pInt oe))
          intro hlat
          rw [dlookup_dictInsert_ne _ _ _ _ (by decide),
            hr "latitude" (by decide)] at hlat
          simp at hlat
        | some p =>
          obtain ⟨la, q⟩ := p
          obtain ⟨lo, pt⟩ := q
          show latInv (dictInsert (dictInsert (dictInsert
            (dictInsert r "oe_flag" (pInt oe)) "latitude" (pRat la))
            "longitude" (pRat lo)) "position_type" (pStr pt))
          intro _
          constructor
          · rw [dlookup_dictInsert_ne _ _ _ _ (by decide), dlookup_dictInsert_self]
            rfl
          · rw [dlookup_dictInsert_self]
            rcases tryResolve_pt lib cfg _ msg t la lo pt htr with rfl | rfl | rfl
            · exact Or.inl rfl
            · exact Or.inr (Or.inl rfl)
            · exact Or.inr (Or.inr rfl)
    · rw [if_neg hg] at heq
      injection heq with h2
      injection h2 with hcc hrr
      subst hrr
      intro hlat
      rw [hr "latitude" (by decide)] at hlat
      simp at hlat

theorem handleMessage_latInv (lib : PMS) (cfg : Config) (st : BeastState)
    (msg : String) (ts : Rat) :
    (resultState (handleMessage lib cfg st (msg, ts))).records = st.records ∨
    ∃ r', (resultState (handleMessage lib cfg st (msg, ts))).records =
        st.records ++ [r'] ∧ latInv r' := by
  simp only [handleMessage]
  by_cases h1 : msg.length ≠ 28
  · rw [if_pos h1]; left; rfl
  rw [if_neg h1]
  by_cases h2 : lib.crc msg ≠ 0
  · rw [if_pos h2]; left; rfl
  rw [if_neg h2]
  by_cases h3 : icaoFalsy (lib.icao msg) = true
  · rw [if_pos h3]; left; rfl
  rw [if_neg h3]
  by_cases h4 : lib.df msg = 17 ∨ lib.df msg = 18
  · rw [if_pos h4]
    by_cases h5 : tcInPos (lib.typecode msg) = true
    · rw [if_pos h5]
      cases hp : handlePosition lib cfg st.position_cache
          (adsbFold lib msg (dictInsert (baseRec lib msg ts (lib.df msg)
            ((lib.icao msg).getD "")) "typecode" (tcPyVal (lib.typecode msg))))
          msg ts ((lib.icao msg).getD "") (lib.typecode msg) with
      | ok pr =>
        obtain ⟨cache2, r3⟩ := pr
        right
        refine ⟨r3, rfl, ?_⟩
        exact handlePosition_latInv lib cfg st.position_cache _ msg ts _ _ cache2 r3
          (fun k hk => dlookup_df17Rec_posKey lib msg ts _ _ _ k hk) hp
      | error st2 => left; rfl
    · rw [if_neg h5]
      right
      refine ⟨_, rfl, ?_⟩
      intro hlat
      rw [dlookup_df17Rec_posKey lib msg ts _ _ _ "latitude" (by decide)] at hlat
      simp at hlat
  rw [if_neg h4]
  by_cases h6 : lib.df msg = 20 ∨ lib.df msg = 21
  · rw [if_pos h6]
    right
    refine ⟨_, rfl, ?_⟩
    intro hlat
    rw [dlookup_commbFold lib msg _ "latitude" (by decide),
      dlookup_bdsFold lib msg _ "latitude" (by decide)] at hlat
    cases hbb : lib.bds_infer msg with
    | error e =>
      rw [hbb] at hlat
      dsimp only at hlat
      rw [dlookup_dictInsert_ne _ _ _ _ (by decide),
        dlookup_baseRec_posKey lib msg ts _ _ "latitude" (by decide)] at hlat
      simp at hlat
    | ok ob =>
      cases ob with
      | none =>
        rw [hbb] at hlat
        dsimp only at hlat
        rw [dlookup_dictInsert_ne _ _ _ _ (by decide),
          dlookup_baseRec_posKey lib msg ts _ _ "latitude" (by decide)] at hlat
        simp at hlat
      | some s =>
        rw [hbb] at hlat
        dsimp only at hlat
        rw [dlookup_dictInsert_ne _ _ _ _ (by decide),
          dlookup_baseRec_posKey lib msg ts _ _ "latitude" (by decide)] at hlat
        simp at hlat
  rw [if_neg h6]
  by_cases h7 : lib.df msg = 4 ∨ lib.df msg = 5
  · rw [if_pos h7]
    right
    refine ⟨_, rfl, ?_⟩
    intro hlat
    cases hac : lib.altcode msg with
    | error e =>
      rw [hac] at hlat
      dsimp only at hlat
      rw [dlookup_baseRec_posKey lib msg ts _ _ "latitude" (by decide)] at hlat
      simp at hlat
    | ok v =>
      rw [hac] at hlat
      dsimp only at hlat
      rw [dlookup_dictInsert_ne _ _ _ _ (by decide),
        dlookup_baseRec_posKey lib msg ts _ _ "latitude" (by decide)] at hlat
      simp at hlat
  rw [if_neg h7]
  by_cases h8 : lib.df msg = 11
  · rw [if_pos h8]
    right
    refine ⟨_, rfl, ?_⟩
    intro hlat
    cases hca : lib.ca msg with
    | error e =>
      rw [hca] at hlat
      dsimp only at hlat
      rw [dlookup_baseRec_posKey lib msg ts _ _ "latitude" (by decide)] at hlat
      simp at hlat
    | ok v =>
      rw [hca] at hlat
      dsimp only at hlat
      rw [dlookup_dictInsert_ne _ _ _ _ (by decide),
        dlookup_baseRec_posKey lib msg ts _ _ "latitude" (by decide)] at hlat
      simp at hlat
  rw [if_neg h8]
  right
  refine ⟨_, rfl, ?_⟩
  intro hlat
  rw [dlookup_baseRec_posKey lib msg ts _ _ "latitude" (by decide)] at hlat
  simp at hlat

theorem handleMessages_latInv (lib : PMS) (cfg : Config) :
    ∀ (msgs : List (String × Rat)) (st : BeastState),
      (∀ r ∈ st.records, latInv r) →
      ∀ r ∈ (resultState (handleMessages lib cfg st msgs)).records, latInv r := by
  intro msgs
  induction msgs with
  | nil =>
    intro st hst
    simpa [handleMessages, resultState] using hst
  | cons p ps ih =>
    intro st hst
    obtain ⟨msg, ts⟩ := p
    simp only [handleMessages]
    cases hm : handleMessage lib cfg st (msg, ts) with
    | ok st' =>
      apply ih st'
      intro r hr
      have hd := handleMessage_latInv lib cfg st msg ts
      rw [hm] at hd
      simp only [resultState] at hd
      rcases hd with hd | ⟨r2, hd, hinv⟩
      · exact hst r (hd ▸ hr)
      · rw [hd] at hr
        rcases List.mem_append.mp hr with h | h
        · exact hst r h
        · rw [List.mem_singleton.mp h]
          exact hinv
    | error st' =>
      intro r hr
      simp only [resultState] at hr
      have hd := handleMessage_latInv lib cfg st msg ts
      rw [hm] at hd
      simp only [resultState] at hd
      rcases hd with hd | ⟨r2, hd, hinv⟩
      · exact hst r (hd ▸ hr)
      · rw [hd] at hr
        rcases List.mem_append.mp hr with h | h
        · exact hst r h
        · rw [List.mem_singleton.mp h]
          exact hinv

/-- C9: in every record the pipeline ever appends, a latitude field is always
accompanied by a longitude field (set in the same decode attempt), and the
position_type field then holds exactly one of the three values "surface",
"airborne" or "with_ref" — the reference-relative fallback tag being a third
value beyond the surface/airborne pair. -/
theorem c9_position_fields_together (lib : PMS) (cfg : Config)
    (msgs : List (String × Rat)) (r : Rec)
    (hr : r ∈ (resultState (handleMessages lib cfg initState msgs)).records) :
    (dlookup r "latitude").isSome →
      (dlookup r "longitude").isSome ∧
      (dlookup r "position_type" = some (pStr "surface") ∨
       dlookup r "position_type" = some (pStr "airborne") ∨
       dlookup r "position_type" = some (pStr "with_ref")) :=
  handleMessages_latInv lib cfg msgs initState (by simp [initState]) r hr

/-- Witness for C9 at the concrete paired-frame run (the second record of
`runA` carries a latitude). -/
theorem c9_position_fields_together_witness :
    (dlookup (runA.records.getD 1 []) "longitude").isSome = true ∧
    (dlookup (runA.records.getD 1 []) "position_type" = some (pStr "surface") ∨
     dlookup (runA.records.getD 1 []) "position_type" = some (pStr "airborne") ∨
     dlookup (runA.records.getD 1 []) "position_type" = some (pStr "with_ref")) :=
  c9_position_fields_together scenLib cfg0 [(msgEven, 100), (msgOdd, 105)]
    (runA.records.getD 1 []) (by decide) (by decide)

/-! ## C3: the all-null placeholder filter is missing from the Comm-B loop -/

/-- C3 (evaluating the code at the failing input): the ADS-B loop filters the
`(None, None)` placeholder (`val is not None and val != (None, None)`), but
the Comm-B loop checks only `val is not None` — so a DF20 frame whose
`wind44` decoder signals not-applicable with `(None, None)` gets
`rec['wind44'] = (None, None)` stored as data, which flattening then turns
into placeholder-null `wind44_speed`/`wind44_dir` fields. -/
theorem c3_commb_nonepair_stored :
    (∀ k msg, adsbResult df20Lib msg k ≠ some nonePair) ∧
    commbResult df20Lib msgEven "wind44" = some nonePair ∧
    (resultState (handleMessage df20Lib cfg0 initState (msgEven, 100))).records.length
      = 1 ∧
    dlookup ((resultState (handleMessage df20Lib cfg0 initState
        (msgEven, 100))).records.getD 0 []) "wind44" = some nonePair ∧
    flattenRecord [("wind44", nonePair)] =
      [("wind44_speed", pNone), ("wind44_dir", pNone)] := by
  refine ⟨?_, by decide, by decide, by decide, by decide⟩
  intro k msg
  unfold adsbResult
  cases adsbDecode df20Lib k msg with
  | error e => simp
  | ok v =>
    dsimp only
    by_cases hv : v ≠ pNone ∧ v ≠ nonePair
    · rw [if_pos hv]
      intro hc
      exact hv.2 (by injection hc)
    · rw [if_neg hv]
      simp

/-! ## C5: fault isolation of individual field decoders -/

/-- Replace the `ADSB_FUNCS` entry at key `k` by decoder `g` (all other
library functions untouched). -/
def updateAdsbF (lib : PMS) (k : String) (g : String → Except Unit PyVal) : PMS :=
  { lib with adsbF := fun j m => if j = k then g m else lib.adsbF j m }

/-- Replace the `COMMB_FUNCS` entry at key `k` by decoder `g`. -/
def updateCommbF (lib : PMS) (k : String) (g : String → Except Unit PyVal) : PMS :=
  { lib with commbF := fun j m => if j = k then g m else lib.commbF j m }

/-- Two libraries that agree on everything the classifier, the statistics
counters, the cache and the crash behaviour depend on (field decoders may
differ arbitrarily). -/
def ClassEq (lib lib' : PMS) : Prop :=
  lib.crc = lib'.crc ∧ lib.df = lib'.df ∧ lib.icao = lib'.icao ∧
  lib.typecode = lib'.typecode ∧ lib.oe_flag = lib'.oe_flag ∧
  lib.bds_infer = lib'.bds_infer

/-- Observational similarity of two client states: identical counters,
identical pairing cache, same number of accumulated records. -/
def StateSim (s s' : BeastState) : Prop :=
  s.counts = s'.counts ∧ s.position_cache = s'.position_cache ∧
  s.records.length = s'.records.length

theorem handlePositionCore_cache (lib : PMS) (cfg : Config)
    (cache : List (String × CacheEntry)) (r : Rec) (msg : String) (ts : Rat)
    (icao : String) (t oe : Int) :
    (handlePositionCore lib cfg cache r msg ts icao t oe).1 =
      dictInsert cache icao
        (updEntry ((dlookup cache icao).getD ⟨none, none⟩) oe msg ts) := by
  simp only [handlePositionCore]
  cases htr : tryResolve lib cfg
      (updEntry ((dlookup cache icao).getD ⟨none, none⟩) oe msg ts) msg t with
  | none => rfl
  | some p =>
    obtain ⟨la, q⟩ := p
    obtain ⟨lo, pt⟩ := q
    rfl

/-- With equal parity-flag extractors, two position-handler invocations that
differ only in the record they carry either both raise or both succeed with
the same cache. -/
theorem handlePosition_pair (lib lib' : PMS) (cfg cfg' : Config)
    (cache : List (String × CacheEntry)) (r r' : Rec) (msg : String) (ts : Rat)
    (icao : String) (tc : Option Int) (hoe : lib.oe_flag = lib'.oe_flag) :
    (∃ c rr rr', handlePosition lib cfg cache r msg ts icao tc = Except.ok (c, rr) ∧
        handlePosition lib' cfg' cache r' msg ts icao tc = Except.ok (c, rr')) ∨
    (∃ e e', handlePosition lib cfg cache r msg ts icao tc = Except.error e ∧
        handlePosition lib' cfg' cache r' msg ts icao tc = Except.error e') := by
  cases tc with
  | none => exact Or.inl ⟨cache, r, r', rfl, rfl⟩
  | some t =>
    by_cases hg : 5 ≤ t ∧ t < 23
    · simp only [handlePosition, if_pos hg, ← hoe]
      cases ho : lib.oe_flag msg with
      | error e => exact Or.inr ⟨e, e, rfl, rfl⟩
      | ok oe =>
        left
        refine ⟨dictInsert cache icao
            (updEntry ((dlookup cache icao).getD ⟨none, none⟩) oe msg ts),
          (handlePositionCore lib cfg cache r msg ts icao t oe).2,
          (handlePositionCore lib' cfg' cache r' msg ts icao t oe).2, ?_, ?_⟩
        · exact congrArg Except.ok
            (Prod.ext (handlePositionCore_cache lib cfg cache r msg ts icao t oe) rfl)
        · exact congrArg Except.ok
            (Prod.ext (handlePositionCore_cache lib' cfg' cache r' msg ts icao t oe) rfl)
    · simp only [handlePosition, if_neg hg]
      exact Or.inl ⟨cache, r, r', rfl, rfl⟩

/-- One pipeline step preserves observational similarity between two runs
whose libraries agree on classification, parity and register inference: same
crash behaviour, same counters, same cache, same record count — whatever the
individual field decoders do. -/
theorem handleMessage_classEq (lib lib' : PMS) (cfg : Config)
    (hC : ClassEq lib lib') (st st' : BeastState) (hS : StateSim st st')
    (p : String × Rat) :
    (handleMessage lib cfg st p).isOk = (handleMessage lib' cfg st' p).isOk ∧
    StateSim (resultState (handleMessage lib cfg st p))
      (resultState (handleMessage lib' cfg st' p)) := by
  obtain ⟨msg, ts⟩ := p
  obtain ⟨hcrc, hdf, hicao, htc, hoe, hbi⟩ := hC
  obtain ⟨hc, hh, hl⟩ := hS
  simp only [handleMessage, ← hcrc, ← hdf, ← hicao, ← htc, ← hbi, ← hh, ← hc]
  by_cases h1 : msg.length ≠ 28
  · rw [if_pos h1, if_pos h1]
    exact ⟨rfl, hc, hh, hl⟩
  rw [if_neg h1, if_neg h1]
  by_cases h2 : lib.crc msg ≠ 0
  · rw [if_pos h2, if_pos h2]
    refine ⟨rfl, ?_, ?_, ?_⟩ <;> simp [resultState, hc, hh, hl]
  rw [if_neg h2, if_neg h2]
  by_cases h3 : icaoFalsy (lib.icao msg) = true
  · rw [if_pos h3, if_pos h3]
    exact ⟨rfl, hc, hh, hl⟩
  rw [if_neg h3, if_neg h3]
  by_cases h4 : lib.df msg = 17 ∨ lib.df msg = 18
  · rw [if_pos h4, if_pos h4]
    by_cases h5 : tcInPos (lib.typecode msg) = true
    · rw [if_pos h5, if_pos h5]
      rcases handlePosition_pair lib lib' cfg cfg st.position_cache
          (adsbFold lib msg (dictInsert (baseRec lib msg ts (lib.df msg)
            ((lib.icao msg).getD "")) "typecode" (tcPyVal (lib.typecode msg))))
          (adsbFold lib' msg (dictInsert (baseRec lib' msg ts (lib.df msg)
            ((lib.icao msg).getD "")) "typecode" (tcPyVal (lib.typecode msg))))
          msg ts ((lib.icao msg).getD "") (lib.typecode msg) hoe with
        ⟨c, rr, rr', hp, hp'⟩ | ⟨e, e', hp, hp'⟩
      · rw [hp, hp']
        refine ⟨rfl, ?_, ?_, ?_⟩ <;> simp [resultState, hc, hh, hl]
      · rw [hp, hp']
        refine ⟨rfl, ?_, ?_, ?_⟩ <;> simp [resultState, hc, hh, hl]
    · rw [if_neg h5, if_neg h5]
      refine ⟨rfl, ?_, ?_, ?_⟩ <;> simp [resultState, hc, hh, hl]
  rw [if_neg h4, if_neg h4]
  by_cases h6 : lib.df msg = 20 ∨ lib.df msg = 21
  · rw [if_pos h6, if_pos h6]
    cases hbb : lib.bds_infer msg with
    | error e => refine ⟨rfl, ?_, ?_, ?_⟩ <;> simp [resultState, hc, hh, hl]
    | ok ob =>
      cases ob with
      | none => refine ⟨rfl, ?_, ?_, ?_⟩ <;> simp [resultState, hc, hh, hl]
      | some s =>
        dsimp only
        by_cases hs : s ≠ "" <;>
          · refine ⟨rfl, ?_, ?_, ?_⟩ <;> simp [resultState, hc, hh, hl]
  rw [if_neg h6, if_neg h6]
  by_cases h7 : lib.df msg = 4 ∨ lib.df msg = 5
  · rw [if_pos h7, if_pos h7]
    cases lib.altcode msg with
    | error e =>
      cases lib'.altcode msg with
      | error e2 => refine ⟨rfl, ?_, ?_, ?_⟩ <;> simp [resultState, hc, hh, hl]
      | ok v2 => refine ⟨rfl, ?_, ?_, ?_⟩ <;> simp [resultState, hc, hh, hl]
    | ok v =>
      cases lib'.altcode msg with
      | error e2 => refine ⟨rfl, ?_, ?_, ?_⟩ <;> simp [resultState, hc, hh, hl]
      | ok v2 => refine ⟨rfl, ?_, ?_, ?_⟩ <;> simp [resultState, hc, hh, hl]
  rw [if_neg h7, if_neg h7]
  by_cases h8 : lib.df msg = 11
  · rw [if_pos h8, if_pos h8]
    cases lib.ca msg with
    | error e =>
      cases lib'.ca msg with
      | error e2 => refine ⟨rfl, ?_, ?_, ?_⟩ <;> simp [resultState, hc, hh, hl]
      | ok v2 => refine ⟨rfl, ?_, ?_, ?_⟩ <;> simp [resultState, hc, hh, hl]
    | ok v =>
      cases lib'.ca msg with
      | error e2 => refine ⟨rfl, ?_, ?_, ?_⟩ <;> simp [resultState, hc, hh, hl]
      | ok v2 => refine ⟨rfl, ?_, ?_, ?_⟩ <;> simp [resultState, hc, hh, hl]
  rw [if_neg h8, if_neg h8]
  refine ⟨rfl, ?_, ?_, ?_⟩ <;> simp [resultState, hc, hh, hl]

/-- Batch-level version of `handleMessage_classEq`. -/
theorem handleMessages_classEq (lib lib' : PMS) (cfg : Config)
    (hC : ClassEq lib lib') :
    ∀ (msgs : List (String × Rat)) (st st' : BeastState), StateSim st st' →
    (handleMessages lib cfg st msgs).isOk = (handleMessages lib' cfg st' msgs).isOk ∧
    StateSim (resultState (handleMessages lib cfg st msgs))
      (resultState (handleMessages lib' cfg st' msgs)) := by
  intro msgs
  induction msgs with
  | nil => intro st st' hS; exact ⟨rfl, hS⟩
  | cons p ps ih =>
    intro st st' hS
    have hstep := handleMessage_classEq lib lib' cfg hC st st' hS p
    simp only [handleMessages]
    cases hm : handleMessage lib cfg st p with
    | ok s1 =>
      cases hm' : handleMessage lib' cfg st' p with
      | ok s1' =>
        have hsim : StateSim s1 s1' := by
          have := hstep.2
          rw [hm, hm'] at this
          exact this
        exact ih s1 s1' hsim
      | error s1' =>
        exfalso
        have := hstep.1
        rw [hm, hm'] at this
        simp [Except.isOk, Except.toBool] at this
    | error s1 =>
      cases hm' : handleMessage lib' cfg st' p with
      | ok s1' =>
        exfalso
        have := hstep.1
        rw [hm, hm'] at this
        simp [Except.isOk, Except.toBool] at this
      | error s1' =>
        have hsim : StateSim s1 s1' := by
          have := hstep.2
          rw [hm, hm'] at this
          exact this
        exact ⟨rfl, hsim⟩

theorem adsbStep_lookup_ne (lib : PMS) (msg : String) (r : Rec) (j k' : String)
    (h : k' ≠ j) : dlookup (adsbStep lib msg r j) k' = dlookup r k' := by
  unfold adsbStep
  cases adsbResult lib msg j with
  | none => rfl
  | some v => exact dlookup_dictInsert_ne r j v k' h

theorem commbStep_lookup_ne (lib : PMS) (msg : String) (r : Rec) (j k' : String)
    (h : k' ≠ j) : dlookup (commbStep lib msg r j) k' = dlookup r k' := by
  unfold commbStep
  cases commbResult lib msg j with
  | none => rfl
  | some v => exact dlookup_dictInsert_ne r j v k' h

theorem adsbFold_other_keys (lib lib' : PMS) (msg : String) (k : String)
    (had : ∀ j, j ≠ k → adsbDecode lib j msg = adsbDecode lib' j msg) :
    ∀ (L : List String) (r r' : Rec),
      (∀ k', k' ≠ k → dlookup r k' = dlookup r' k') →
      ∀ k', k' ≠ k →
        dlookup (L.foldl (adsbStep lib msg) r) k' =
        dlookup (L.foldl (adsbStep lib' msg) r') k' := by
  intro L
  induction L with
  | nil => intro r r' hr k' hk'; exact hr k' hk'
  | cons j L ih =>
    intro r r' hr k' hk'
    rw [List.foldl_cons, List.foldl_cons]
    apply ih _ _ _ k' hk'
    intro k2 hk2
    by_cases hj : j = k
    · subst hj
      rw [adsbStep_lookup_ne lib msg r j k2 hk2,
        adsbStep_lookup_ne lib' msg r' j k2 hk2]
      exact hr k2 hk2
    · have hres : adsbResult lib msg j = adsbResult lib' msg j := by
        unfold adsbResult
        rw [had j hj]
      unfold adsbStep
      rw [hres]
      cases adsbResult lib' msg j with
      | none => exact hr k2 hk2
      | some v =>
        by_cases hkj : k2 = j
        · subst hkj
          rw [dlookup_dictInsert_self, dlookup_dictInsert_self]
        · rw [dlookup_dictInsert_ne _ _ _ _ hkj, dlookup_dictInsert_ne _ _ _ _ hkj]
          exact hr k2 hk2

theorem commbFold_other_keys (lib lib' : PMS) (msg : String) (k : String)
    (had : ∀ j, j ≠ k → lib.commbF j msg = lib'.commbF j msg) :
    ∀ (L : List String) (r r' : Rec),
      (∀ k', k' ≠ k → dlookup r k' = dlookup r' k') →
      ∀ k', k' ≠ k →
        dlookup (L.foldl (commbStep lib msg) r) k' =
        dlookup (L.foldl (commbStep lib' msg) r') k' := by
  intro L
  induction L with
  | nil => intro r r' hr k' hk'; exact hr k' hk'
  | cons j L ih =>
    intro r r' hr k' hk'
    rw [List.foldl_cons, List.foldl_cons]
    apply ih _ _ _ k' hk'
    intro k2 hk2
    by_cases hj : j = k
    · subst hj
      rw [commbStep_lookup_ne lib msg r j k2 hk2,
        commbStep_lookup_ne lib' msg r' j k2 hk2]
      exact hr k2 hk2
    · have hres : commbResult lib msg j = commbResult lib' msg j := by
        unfold commbResult
        rw [had j hj]
      unfold commbStep
      rw [hres]
      cases commbResult lib' msg j with
      | none => exact hr k2 hk2
      | some v =>
        by_cases hkj : k2 = j
        · subst hkj
          rw [dlookup_dictInsert_self, dlookup_dictInsert_self]
        · rw [dlookup_dictInsert_ne _ _ _ _ hkj, dlookup_dictInsert_ne _ _ _ _ hkj]
          exact hr k2 hk2

theorem adsbFold_failed_absent (lib : PMS) (msg : String) (k : String)
    (hres : adsbResult lib msg k = none) :
    ∀ (L : List String) (r : Rec), dlookup r k = none →
      dlookup (L.foldl (adsbStep lib msg) r) k = none := by
  intro L
  induction L with
  | nil => intro r hr; exact hr
  | cons j L ih =>
    intro r hr
    rw [List.foldl_cons]
    apply ih
    by_cases hj : j = k
    · subst hj
      unfold adsbStep
      rw [hres]
      exact hr
    · rw [adsbStep_lookup_ne lib msg r j k (fun h => hj h.symm)]
      exact hr

theorem commbFold_failed_absent (lib : PMS) (msg : String) (k : String)
    (hres : commbResult lib msg k = none) :
    ∀ (L : List String) (r : Rec), dlookup r k = none →
      dlookup (L.foldl (commbStep lib msg) r) k = none := by
  intro L
  induction L with
  | nil => intro r hr; exact hr
  | cons j L ih =>
    intro r hr
    rw [List.foldl_cons]
    apply ih
    by_cases hj : j = k
    · subst hj
      unfold commbStep
      rw [hres]
      exact hr
    · rw [commbStep_lookup_ne lib msg r j k (fun h => hj h.symm)]
      exact hr

/-- C5 counterexample: the parity-flag extractor (`pms.adsb.oe_flag`, an entry
of `ADSB_FUNCS`) raising on a position-range frame is NOT isolated: the
unguarded call at line 308 of `_handle_position_message` aborts the whole
batch — the frame's record is never appended (although its df/tc counters
were already bumped) and the following message is never processed. -/
theorem c5_fault_isolation_counterexample :
    (handleMessages crashLib cfg0 initState [(msgEven, 100), (msgOdd, 101)]).isOk
      = false ∧
    (resultState (handleMessages crashLib cfg0 initState
      [(msgEven, 100), (msgOdd, 101)])).records = [] ∧
    (resultState (handleMessages crashLib cfg0 initState
      [(msgEven, 100), (msgOdd, 101)])).counts "df17" = 1 ∧
    (resultState (handleMessages crashLib cfg0 initState
      [(msgEven, 100), (msgOdd, 101)])).counts "tc11" = 1 := by decide

/-- C5 (amended): every individual field-decode invocation in the ADS-B and
Comm-B decode loops is independently fault-isolated — replacing the decoder
of any one field changes no statistics counter, no cache entry, no record
count and no crash behaviour, leaves every other field's decode result
unchanged, and a decoder that raises or returns the not-applicable sentinel
(`None`, and in the ADS-B loop also `(None, None)`) leaves its own field
absent.  The exception forced by the counterexample: the parity-flag decoder
(`oe_flag`) is re-invoked unguarded inside the position handler, so its
failure on a position-range frame aborts the batch instead of being isolated
(hence isolation is stated for the decode loops and for decoder replacements,
which leave the handler's own `oe_flag` call untouched). -/
theorem c5_fault_isolation_amended :
    (∀ (lib : PMS) (cfg : Config) (kA kC : String)
       (gA gC : String → Except Unit PyVal) (msgs : List (String × Rat))
       (st st' : BeastState), StateSim st st' →
      (handleMessages lib cfg st msgs).isOk =
        (handleMessages (updateCommbF (updateAdsbF lib kA gA) kC gC) cfg st' msgs).isOk ∧
      StateSim (resultState (handleMessages lib cfg st msgs))
        (resultState (handleMessages
          (updateCommbF (updateAdsbF lib kA gA) kC gC) cfg st' msgs))) ∧
    (∀ (lib lib' : PMS) (msg k : String),
      (∀ j, j ≠ k → adsbDecode lib j msg = adsbDecode lib' j msg) →
      ∀ (r r' : Rec), (∀ k', k' ≠ k → dlookup r k' = dlookup r' k') →
      ∀ k', k' ≠ k →
        dlookup (adsbFold lib msg r) k' = dlookup (adsbFold lib' msg r') k') ∧
    (∀ (lib : PMS) (msg k : String) (r : Rec),
      adsbResult lib msg k = none → dlookup r k = none →
      dlookup (adsbFold lib msg r) k = none) ∧
    (∀ (lib lib' : PMS) (msg k : String),
      (∀ j, j ≠ k → lib.commbF j msg = lib'.commbF j msg) →
      ∀ (r r' : Rec), (∀ k', k' ≠ k → dlookup r k' = dlookup r' k') →
      ∀ k', k' ≠ k →
        dlookup (commbFold lib msg r) k' = dlookup (commbFold lib' msg r') k') ∧
    (∀ (lib : PMS) (msg k : String) (r : Rec),
      commbResult lib msg k = none → dlookup r k = none →
      dlookup (commbFold lib msg r) k = none) := by
  refine ⟨?_, ?_, ?_, ?_, ?_⟩
  · intro lib cfg kA kC gA gC msgs st st' hS
    exact handleMessages_classEq lib (updateCommbF (updateAdsbF lib kA gA) kC gC)
      cfg ⟨rfl, rfl, rfl, rfl, rfl, rfl⟩ msgs st st' hS
  · intro lib lib' msg k had r r' hr k' hk'
    exact adsbFold_other_keys lib lib' msg k had ADSB_KEYS r r' hr k' hk'
  · intro lib msg k r hres hr
    exact adsbFold_failed_absent lib msg k hres ADSB_KEYS r hr
  · intro lib lib' msg k had r r' hr k' hk'
    exact commbFold_other_keys lib lib' msg k had COMMB_KEYS r r' hr k' hk'
  · intro lib msg k r hres hr
    exact commbFold_failed_absent lib msg k hres COMMB_KEYS r hr

/-- Witness for C5's amended theorem: replacing the `callsign` and `wind44`
decoders by raising ones leaves the concrete run's counters, cache and record
count unchanged, and the replaced `callsign` field is absent from the loop's
output. -/
theorem c5_fault_isolation_amended_witness :
    StateSim (resultState (handleMessages scenLib cfg0 initState [(msgEven, 100)]))
      (resultState (handleMessages
        (updateCommbF (updateAdsbF scenLib "callsign" (fun _ => Except.error ()))
          "wind44" (fun _ => Except.error ())) cfg0 initState [(msgEven, 100)])) ∧
    dlookup (adsbFold (updateAdsbF scenLib "callsign" (fun _ => Except.error ()))
      msgEven []) "callsign" = none :=
  ⟨(c5_fault_isolation_amended.1 scenLib cfg0 "callsign" "wind44"
      (fun _ => Except.error ()) (fun _ => Except.error ()) [(msgEven, 100)]
      initState initState ⟨rfl, rfl, rfl⟩).2,
   c5_fault_isolation_amended.2.2.1
     (updateAdsbF scenLib "callsign" (fun _ => Except.error ())) msgEven "callsign"
     [] (by decide) rfl⟩

end FlightData
